import Mathlib

/-!
# Room simulation of `src/Server.cpp`

A shallow embedding of the game-room code of `src/Server.cpp`:

* `Snake` and `GameRoom` are the two structs of the source.  The
  `std::unordered_map<std::string, Snake>` of players is an association list in
  the order in which the range-`for` loops visit it; the mutex is not part of the
  sequential state.
* `int` coordinates are mathematical integers; an increment or decrement that
  would leave the 32-bit `int` range is undefined behaviour in C++ and is
  modelled by `none`, and so is `body.front()` on an empty vector.
* `rand()` is a stream `rand : Nat → Nat` of non-negative values together with
  the index of the next unread value.
-/

namespace Server

/-- A grid cell, the `std::pair<int, int>` of the source: `(first, second) = (x, y)`. -/
abbrev Cell := Int × Int

/-- Smallest value of a 32-bit `int`. -/
def INT_MIN : Int := -2147483648

/-- Largest value of a 32-bit `int`. -/
def INT_MAX : Int := 2147483647

/-- The struct `Snake` of the source: body (head first), direction
(0 up, 1 right, 2 down, 3 left) and the alive flag. -/
structure Snake where
  body : List Cell
  direction : Int
  alive : Bool
  deriving DecidableEq

/-- The struct `GameRoom` of the source without its mutex: the players in
iteration order and the food cell. -/
structure GameRoom where
  players : List (String × Snake)
  food : Cell
  deriving DecidableEq

/-- The `switch (snake.direction)` of `updateGameRoom` (lines 42-47): the head
shifted one cell along the direction; a direction outside 0..3 matches no case
and leaves the head as it is.  Signed overflow gives `none`. -/
def shiftHead (head : Cell) (direction : Int) : Option Cell :=
  if direction = 0 then
    (if INT_MIN ≤ head.2 - 1 then some (head.1, head.2 - 1) else none)
  else if direction = 1 then
    (if head.1 + 1 ≤ INT_MAX then some (head.1 + 1, head.2) else none)
  else if direction = 2 then
    (if head.2 + 1 ≤ INT_MAX then some (head.1, head.2 + 1) else none)
  else if direction = 3 then
    (if INT_MIN ≤ head.1 - 1 then some (head.1 - 1, head.2) else none)
  else some head

/-- Lines 41-47 of `updateGameRoom`: `body.front()` followed by the switch.
An empty body has no front. -/
def newHead (snake : Snake) : Option Cell :=
  match snake.body with
  | [] => none
  | h :: _ => shiftHead h snake.direction

/-- The food drawn on line 53, `{rand() % 20, rand() % 20}`: the braced list
evaluates the two calls left to right, reading the values `k` and `k + 1` of
the stream. -/
def newFood (rand : Nat → Nat) (k : Nat) : Cell :=
  (((rand k % 20 : Nat) : Int), ((rand (k + 1) % 20 : Nat) : Int))

/-- One iteration of the loop of `updateGameRoom` (lines 38-58) for one snake,
with the current food and the index of the next `rand()` value; returns the
snake, the food and the index after the iteration. -/
def stepSnake (rand : Nat → Nat) (food : Cell) (k : Nat) (snake : Snake) :
    Option (Snake × Cell × Nat) :=
  if snake.alive = false then some (snake, food, k)
  else
    match newHead snake with
    | none => none
    | some head =>
      if head = food then
        some ({ snake with body := head :: snake.body }, newFood rand k, k + 2)
      else
        some ({ snake with body := (head :: snake.body).dropLast }, food, k)

/-- The range-`for` loop of `updateGameRoom` (line 37) over the players in
iteration order, threading the food and the `rand()` index. -/
def tickPlayers (rand : Nat → Nat) :
    Cell → Nat → List (String × Snake) → Option (List (String × Snake) × Cell × Nat)
  | food, k, [] => some ([], food, k)
  | food, k, p :: rest =>
    match stepSnake rand food k p.2 with
    | none => none
    | some (snake, food1, k1) =>
      match tickPlayers rand food1 k1 rest with
      | none => none
      | some (rest1, food2, k2) => some ((p.1, snake) :: rest1, food2, k2)

/-- The function `updateGameRoom` of the source: one tick of a room.  `k` is the
index of the next `rand()` value; the result carries the index after the tick. -/
def updateGameRoom (rand : Nat → Nat) (k : Nat) (room : GameRoom) : Option (GameRoom × Nat) :=
  match tickPlayers rand room.food k room.players with
  | none => none
  | some (players, food, k1) => some ({ players := players, food := food }, k1)

/-- The if-chain of `handleWebSocketMessage` (lines 68-76) for one snake. -/
def setDirection (message : String) (snake : Snake) : Snake :=
  if message = "UP" then { snake with direction := 0 }
  else if message = "RIGHT" then { snake with direction := 1 }
  else if message = "DOWN" then { snake with direction := 2 }
  else if message = "LEFT" then { snake with direction := 3 }
  else snake

/-- The function `handleWebSocketMessage` of the source: the if-chain applied to
every player of the room (the loop of line 67); the socket argument is unused. -/
def handleWebSocketMessage (message : String) (room : GameRoom) : GameRoom :=
  { room with players := room.players.map (fun p => (p.1, setDirection message p.2)) }

/-- The snake a session inserts on joining (line 93): body `[(5,5)]`, heading
right, alive. -/
def joinSnake : Snake := { body := [(5, 5)], direction := 1, alive := true }

/-- Assignment `players[id] = snake` on the association list: the entry of an
existing key is overwritten in place, a new key is added at the end. -/
def assign (id : String) (snake : Snake) : List (String × Snake) → List (String × Snake)
  | [] => [(id, snake)]
  | p :: rest => if p.1 = id then (id, snake) :: rest else p :: assign id snake rest

/-- The join step of `doSession` (lines 92-94): `players["player_1"] = snake`. -/
def joinRoom (room : GameRoom) : GameRoom :=
  { room with players := assign "player_1" joinSnake room.players }

/-- What drives a room: a tick of the update thread or a message of a client. -/
inductive Event where
  | tick : Event
  | message : String → Event
  deriving DecidableEq

/-- A sequence of ticks and messages applied to a room, left to right. -/
def run (rand : Nat → Nat) : Nat → GameRoom → List Event → Option (GameRoom × Nat)
  | k, room, [] => some (room, k)
  | k, room, Event.tick :: es =>
    match updateGameRoom rand k room with
    | none => none
    | some (room1, k1) => run rand k1 room1 es
  | k, room, Event.message m :: es => run rand k (handleWebSocketMessage m room) es

/-- A cell of the 20 x 20 grid, the range `rand() % 20` draws the food from. -/
def inGrid (c : Cell) : Prop := 0 ≤ c.1 ∧ c.1 < 20 ∧ 0 ≤ c.2 ∧ c.2 < 20

instance (c : Cell) : Decidable (inGrid c) := by
  unfold inGrid; infer_instance

/-- Every segment of every living snake of the list lies in the grid. -/
def contained (players : List (String × Snake)) : Prop :=
  ∀ p ∈ players, p.2.alive = true → ∀ c ∈ p.2.body, inGrid c

instance (players : List (String × Snake)) : Decidable (contained players) := by
  unfold contained; infer_instance

/-- Every living snake of the list has a new head, and it lies in the grid. -/
def headsInGrid (players : List (String × Snake)) : Prop :=
  ∀ p ∈ players, p.2.alive = true → ∃ c, newHead p.2 = some c ∧ inGrid c

/-- The room `rooms[room_id]` creates on first access (line 89): no players, the
food value-initialised to `(0, 0)`. -/
def emptyRoom : GameRoom := { players := [], food := (0, 0) }

/-- The room after the join step of the first session. -/
def joinState : GameRoom := joinRoom emptyRoom

/-- Every living snake of the list has a body without duplicate cells. -/
def selfConsistent (players : List (String × Snake)) : Prop :=
  ∀ p ∈ players, p.2.alive = true → p.2.body.Nodup

instance (players : List (String × Snake)) : Decidable (selfConsistent players) := by
  unfold selfConsistent; infer_instance

/-- Every living snake of the list has a new head: its body is not empty and
the shift does not overflow, so the loop body is defined for it. -/
def canStep (players : List (String × Snake)) : Prop :=
  ∀ p ∈ players, p.2.alive = true → (newHead p.2).isSome = true

instance (players : List (String × Snake)) : Decidable (canStep players) := by
  unfold canStep; infer_instance

/-- The test of line 50 for one snake: it is alive and its new head is the
cell `food`. -/
def eats (food : Cell) (s : Snake) : Bool :=
  s.alive && (newHead s == some food)

/-- What an iteration makes of one snake while the food is `food`: a dead snake
stays, a snake whose new head is `food` grows, any other snake moves. -/
def advance (food : Cell) (s : Snake) : Snake :=
  if s.alive = false then s
  else
    match newHead s with
    | none => s
    | some head =>
      if head = food then { s with body := head :: s.body }
      else { s with body := (head :: s.body).dropLast }

/-- The heading a recognised command stands for, with `none` for any other
message: the conditions and constants of the if-chain of lines 68-76. -/
def headingOf (message : String) : Option Int :=
  if message = "UP" then some 0
  else if message = "RIGHT" then some 1
  else if message = "DOWN" then some 2
  else if message = "LEFT" then some 3
  else none

/-- The exact opposite of a heading 0..3: up (0) and down (2), right (1) and
left (3).  The source has no such notion; it states the reverse rule. -/
def opposite (d : Int) : Int := (d + 2) % 4

/-- Every snake of the list, living or dead, has at least one segment. -/
def nonEmptyBodies (players : List (String × Snake)) : Prop :=
  ∀ p ∈ players, 1 ≤ p.2.body.length

instance (players : List (String × Snake)) : Decidable (nonEmptyBodies players) := by
  unfold nonEmptyBodies; infer_instance

/-! ## The loop body -/

theorem stepSnake_dead (rand : Nat → Nat) (food : Cell) (k : Nat) (s : Snake)
    (h : s.alive = false) : stepSnake rand food k s = some (s, food, k) := by
  simp [stepSnake, h]

theorem stepSnake_eat (rand : Nat → Nat) (food : Cell) (k : Nat) (s : Snake)
    (ha : s.alive = true) (hn : newHead s = some food) :
    stepSnake rand food k s =
      some ({ s with body := food :: s.body }, newFood rand k, k + 2) := by
  simp [stepSnake, ha, hn]

theorem stepSnake_move (rand : Nat → Nat) (food : Cell) (k : Nat) (s : Snake) (nh : Cell)
    (ha : s.alive = true) (hn : newHead s = some nh) (hf : nh ≠ food) :
    stepSnake rand food k s = some ({ s with body := (nh :: s.body).dropLast }, food, k) := by
  simp [stepSnake, ha, hn, hf]

/-- The three ways an iteration ends: a dead snake is skipped, the food is
eaten, or the snake moves. -/
theorem stepSnake_cases (rand : Nat → Nat) (food : Cell) (k : Nat) (s s1 : Snake)
    (food1 : Cell) (k1 : Nat) (h : stepSnake rand food k s = some (s1, food1, k1)) :
    (s.alive = false ∧ s1 = s ∧ food1 = food ∧ k1 = k) ∨
    (s.alive = true ∧ newHead s = some food ∧ s1 = { s with body := food :: s.body } ∧
      food1 = newFood rand k ∧ k1 = k + 2) ∨
    (s.alive = true ∧ ∃ nh, newHead s = some nh ∧ nh ≠ food ∧
      s1 = { s with body := (nh :: s.body).dropLast } ∧ food1 = food ∧ k1 = k) := by
  rcases Bool.eq_false_or_eq_true s.alive with ha | ha
  · cases hn : newHead s with
    | none => simp [stepSnake, ha, hn] at h
    | some nh =>
      by_cases hf : nh = food
      · subst hf
        rw [stepSnake_eat rand nh k s ha hn] at h
        simp only [Option.some.injEq, Prod.mk.injEq] at h
        obtain ⟨h1, h2, h3⟩ := h
        exact Or.inr (Or.inl ⟨ha, rfl, h1.symm, h2.symm, h3.symm⟩)
      · rw [stepSnake_move rand food k s nh ha hn hf] at h
        simp only [Option.some.injEq, Prod.mk.injEq] at h
        obtain ⟨h1, h2, h3⟩ := h
        exact Or.inr (Or.inr ⟨ha, nh, rfl, hf, h1.symm, h2.symm, h3.symm⟩)
  · rw [stepSnake_dead rand food k s ha] at h
    simp only [Option.some.injEq, Prod.mk.injEq] at h
    obtain ⟨h1, h2, h3⟩ := h
    exact Or.inl ⟨ha, h1.symm, h2.symm, h3.symm⟩

/-- An iteration is defined as soon as a living snake has a new head. -/
theorem stepSnake_defined (rand : Nat → Nat) (food : Cell) (k : Nat) (s : Snake)
    (h : s.alive = true → ∃ c, newHead s = some c) :
    ∃ r, stepSnake rand food k s = some r := by
  rcases Bool.eq_false_or_eq_true s.alive with ha | ha
  · obtain ⟨c, hc⟩ := h ha
    by_cases hf : c = food
    · subst hf; exact ⟨_, stepSnake_eat rand c k s ha hc⟩
    · exact ⟨_, stepSnake_move rand food k s c ha hc hf⟩
  · exact ⟨_, stepSnake_dead rand food k s ha⟩

/-! ## The loop -/

theorem tickPlayers_cons (rand : Nat → Nat) (food : Cell) (k : Nat) (p : String × Snake)
    (rest : List (String × Snake)) (s1 : Snake) (food1 : Cell) (k1 : Nat)
    (rest1 : List (String × Snake)) (food2 : Cell) (k2 : Nat)
    (h1 : stepSnake rand food k p.2 = some (s1, food1, k1))
    (h2 : tickPlayers rand food1 k1 rest = some (rest1, food2, k2)) :
    tickPlayers rand food k (p :: rest) = some ((p.1, s1) :: rest1, food2, k2) := by
  simp [tickPlayers, h1, h2]

theorem tickPlayers_cons_inv (rand : Nat → Nat) (food : Cell) (k : Nat) (p : String × Snake)
    (rest out : List (String × Snake)) (food2 : Cell) (k2 : Nat)
    (h : tickPlayers rand food k (p :: rest) = some (out, food2, k2)) :
    ∃ s1 food1 k1 rest1, stepSnake rand food k p.2 = some (s1, food1, k1) ∧
      tickPlayers rand food1 k1 rest = some (rest1, food2, k2) ∧ out = (p.1, s1) :: rest1 := by
  unfold tickPlayers at h
  cases h1 : stepSnake rand food k p.2 with
  | none => simp [h1] at h
  | some r =>
    obtain ⟨s1, food1, k1⟩ := r
    cases h2 : tickPlayers rand food1 k1 rest with
    | none => simp [h1, h2] at h
    | some r2 =>
      obtain ⟨rest1, f2, c2⟩ := r2
      simp only [h1, h2, Option.some.injEq, Prod.mk.injEq] at h
      obtain ⟨h3, h4, h5⟩ := h
      subst h4 h5
      exact ⟨s1, food1, k1, rest1, rfl, h2, h3.symm⟩

/-- Every entry of the result is the iteration of the entry at the same place,
under the food and the index the loop had reached there; the ids are kept. -/
theorem tickPlayers_forall2 (rand : Nat → Nat) (ps : List (String × Snake)) :
    ∀ (food : Cell) (k : Nat) (out : List (String × Snake)) (food2 : Cell) (k2 : Nat),
      tickPlayers rand food k ps = some (out, food2, k2) →
      List.Forall₂ (fun p q => q.1 = p.1 ∧ ∃ f c f1 c1,
        stepSnake rand f c p.2 = some (q.2, f1, c1)) ps out := by
  induction ps with
  | nil =>
    intro food k out food2 k2 h
    simp only [tickPlayers, Option.some.injEq, Prod.mk.injEq] at h
    rw [← h.1]
    exact List.Forall₂.nil
  | cons p rest ih =>
    intro food k out food2 k2 h
    obtain ⟨s1, food1, k1, rest1, h1, h2, h3⟩ :=
      tickPlayers_cons_inv rand food k p rest out food2 k2 h
    subst h3
    exact List.Forall₂.cons ⟨rfl, food, k, food1, k1, h1⟩ (ih food1 k1 rest1 food2 k2 h2)

/-- The loop is defined as soon as every living snake has a new head. -/
theorem tickPlayers_defined (rand : Nat → Nat) (ps : List (String × Snake)) :
    ∀ (food : Cell) (k : Nat),
      (∀ p ∈ ps, p.2.alive = true → ∃ c, newHead p.2 = some c) →
      ∃ r, tickPlayers rand food k ps = some r := by
  induction ps with
  | nil => intro food k _; exact ⟨_, rfl⟩
  | cons p rest ih =>
    intro food k h
    obtain ⟨⟨s1, food1, k1⟩, h1⟩ :=
      stepSnake_defined rand food k p.2 (h p (List.mem_cons_self _ _))
    obtain ⟨⟨rest1, food2, k2⟩, h2⟩ :=
      ih food1 k1 (fun q hq => h q (List.mem_cons_of_mem _ hq))
    exact ⟨_, tickPlayers_cons rand food k p rest s1 food1 k1 rest1 food2 k2 h1 h2⟩

/-- The loop over `l1 ++ l2` is the loop over `l1` followed by the loop over `l2`. -/
theorem tickPlayers_append (rand : Nat → Nat) (l1 l2 : List (String × Snake)) :
    ∀ (food : Cell) (k : Nat) (out1 : List (String × Snake)) (food1 : Cell) (k1 : Nat)
      (out2 : List (String × Snake)) (food2 : Cell) (k2 : Nat),
      tickPlayers rand food k l1 = some (out1, food1, k1) →
      tickPlayers rand food1 k1 l2 = some (out2, food2, k2) →
      tickPlayers rand food k (l1 ++ l2) = some (out1 ++ out2, food2, k2) := by
  induction l1 with
  | nil =>
    intro food k out1 food1 k1 out2 food2 k2 h1 h2
    simp only [tickPlayers, Option.some.injEq, Prod.mk.injEq] at h1
    obtain ⟨e1, e2, e3⟩ := h1
    subst e1 e2 e3
    simpa using h2
  | cons p rest ih =>
    intro food k out1 food1 k1 out2 food2 k2 h1 h2
    obtain ⟨s, f, c, rest1, h3, h4, h5⟩ :=
      tickPlayers_cons_inv rand food k p rest out1 food1 k1 h1
    subst h5
    have h6 := ih f c rest1 food1 k1 out2 food2 k2 h4 h2
    exact tickPlayers_cons rand food k p (rest ++ l2) s f c (rest1 ++ out2) food2 k2 h3 h6

theorem updateGameRoom_eq (rand : Nat → Nat) (k : Nat) (room : GameRoom)
    (out : List (String × Snake)) (food1 : Cell) (k1 : Nat)
    (h : tickPlayers rand room.food k room.players = some (out, food1, k1)) :
    updateGameRoom rand k room = some ({ players := out, food := food1 }, k1) := by
  simp [updateGameRoom, h]

theorem updateGameRoom_inv (rand : Nat → Nat) (k : Nat) (room room1 : GameRoom) (k1 : Nat)
    (h : updateGameRoom rand k room = some (room1, k1)) :
    tickPlayers rand room.food k room.players = some (room1.players, room1.food, k1) := by
  unfold updateGameRoom at h
  cases ht : tickPlayers rand room.food k room.players with
  | none => simp [ht] at h
  | some r =>
    obtain ⟨out, f, c⟩ := r
    simp only [ht, Option.some.injEq, Prod.mk.injEq] at h
    obtain ⟨h1, h2⟩ := h
    subst h1 h2
    rfl

/-! ## Entries of the result -/

theorem forall2_mem_right {α β : Type} {R : α → β → Prop} {l1 : List α} {l2 : List β}
    (h : List.Forall₂ R l1 l2) : ∀ b ∈ l2, ∃ a ∈ l1, R a b := by
  induction h with
  | nil => intro b hb; simp at hb
  | cons hab _ ih =>
    intro b hb
    rcases List.mem_cons.mp hb with rfl | hb1
    · exact ⟨_, List.mem_cons_self _ _, hab⟩
    · obtain ⟨a, ha, hr⟩ := ih b hb1
      exact ⟨a, List.mem_cons_of_mem _ ha, hr⟩

theorem forall2_mem_left {α β : Type} {R : α → β → Prop} {l1 : List α} {l2 : List β}
    (h : List.Forall₂ R l1 l2) : ∀ a ∈ l1, ∃ b ∈ l2, R a b := by
  induction h with
  | nil => intro a ha; simp at ha
  | cons hab _ ih =>
    intro a ha
    rcases List.mem_cons.mp ha with rfl | ha1
    · exact ⟨_, List.mem_cons_self _ _, hab⟩
    · obtain ⟨b, hb, hr⟩ := ih a ha1
      exact ⟨b, List.mem_cons_of_mem _ hb, hr⟩

/-- A living snake leaves an iteration alive, with its new head in front of
cells of its old body. -/
theorem stepSnake_alive (rand : Nat → Nat) (food : Cell) (k : Nat) (s s1 : Snake)
    (food1 : Cell) (k1 : Nat) (h : stepSnake rand food k s = some (s1, food1, k1))
    (ha : s.alive = true) :
    ∃ nh tl, newHead s = some nh ∧ s1.body = nh :: tl ∧ s1.alive = true ∧
      s1.direction = s.direction ∧ List.Sublist tl s.body := by
  rcases stepSnake_cases rand food k s s1 food1 k1 h with h1 | h1 | h1
  · rw [h1.1] at ha; cases ha
  · obtain ⟨_, hn, hs, _, _⟩ := h1
    subst hs
    exact ⟨food, s.body, hn, rfl, ha, rfl, List.Sublist.refl _⟩
  · obtain ⟨_, nh, hn, _, hs, _, _⟩ := h1
    subst hs
    cases hb : s.body with
    | nil => simp [newHead, hb] at hn
    | cons c t =>
      refine ⟨nh, (c :: t).dropLast, hn, ?_, ha, rfl, List.dropLast_sublist _⟩
      simp [List.dropLast]

/-- A snake is alive after an iteration only if it was alive before. -/
theorem stepSnake_alive_inv (rand : Nat → Nat) (food : Cell) (k : Nat) (s s1 : Snake)
    (food1 : Cell) (k1 : Nat) (h : stepSnake rand food k s = some (s1, food1, k1))
    (ha : s1.alive = true) : s.alive = true := by
  rcases stepSnake_cases rand food k s s1 food1 k1 h with h1 | h1 | h1
  · obtain ⟨hd, hs, _, _⟩ := h1
    rw [hs] at ha; exact ha
  · exact h1.1
  · exact h1.1

/-! ## Grid containment (C1) -/

/-- C1, as stated, fails: from the join state (one living snake `[(5,5)]`
heading right, inside the grid) fifteen ticks put the head on `(20,5)`, outside
the grid, and the snake is still alive. -/
theorem grid_containment_counterexample :
    contained joinState.players ∧
    run (fun _ => 0) 0 joinState (List.replicate 15 Event.tick) =
      some ({ players := [("player_1", { body := [(20, 5)], direction := 1, alive := true })],
              food := (0, 0) }, 0) ∧
    ¬ contained [("player_1", ({ body := [(20, 5)], direction := 1, alive := true } : Snake))] := by
  decide

/-- C1, amended: from a room whose living snakes all lie inside the grid,
every message keeps them inside; a tick whose living snakes all have their new
head inside the grid returns and keeps them inside; and a tick that returns
with all living snakes inside the grid had all new heads inside the grid. -/
theorem grid_containment_step (room : GameRoom) (h : contained room.players) :
    (∀ m, contained (handleWebSocketMessage m room).players) ∧
    (∀ rand k, headsInGrid room.players →
      ∃ room1 k1, updateGameRoom rand k room = some (room1, k1) ∧ contained room1.players) ∧
    (∀ rand k room1 k1, updateGameRoom rand k room = some (room1, k1) →
      contained room1.players → headsInGrid room.players) := by
  refine ⟨?_, ?_, ?_⟩
  · intro m q hq ha c hc
    simp only [handleWebSocketMessage, List.mem_map] at hq
    obtain ⟨p, hp, rfl⟩ := hq
    have hb : (setDirection m p.2).body = p.2.body := by
      unfold setDirection; split_ifs <;> rfl
    have hal : (setDirection m p.2).alive = p.2.alive := by
      unfold setDirection; split_ifs <;> rfl
    simp only [hb] at hc
    simp only [hal] at ha
    exact h p hp ha c hc
  · intro rand k hh
    obtain ⟨⟨out, food1, k1⟩, ht⟩ := tickPlayers_defined rand room.players room.food k
      (fun p hp ha => (hh p hp ha).imp (fun _ hc => hc.1))
    refine ⟨_, _, updateGameRoom_eq rand k room out food1 k1 ht, ?_⟩
    intro q hq ha c hc
    obtain ⟨p, hp, _, f, c0, f1, c1, hs⟩ :=
      forall2_mem_right (tickPlayers_forall2 rand room.players room.food k out food1 k1 ht) q hq
    have hpa := stepSnake_alive_inv rand f c0 p.2 q.2 f1 c1 hs ha
    obtain ⟨nh, tl, hn, hb, _, _, hsub⟩ := stepSnake_alive rand f c0 p.2 q.2 f1 c1 hs hpa
    obtain ⟨nh1, hn1, hg⟩ := hh p hp hpa
    rw [hn] at hn1
    cases hn1
    rw [hb] at hc
    rcases List.mem_cons.mp hc with rfl | hc1
    · exact hg
    · exact h p hp hpa c (hsub.subset hc1)
  · intro rand k room1 k1 hu hc p hp ha
    have ht := updateGameRoom_inv rand k room room1 k1 hu
    obtain ⟨q, hq, _, f, c0, f1, c1, hs⟩ :=
      forall2_mem_left (tickPlayers_forall2 rand room.players room.food k _ _ _ ht) p hp
    obtain ⟨nh, tl, hn, hb, hqa, _, _⟩ := stepSnake_alive rand f c0 p.2 q.2 f1 c1 hs ha
    exact ⟨nh, hn, hc q hq hqa nh (by rw [hb]; exact List.mem_cons_self _ _)⟩

/-- The amended C1 at the join state: the snake `[(5,5)]` heading right has its
new head `(6,5)` inside the grid. -/
theorem grid_containment_step_witness :
    contained joinState.players ∧
    ((∀ m, contained (handleWebSocketMessage m joinState).players) ∧
    (∀ rand k, headsInGrid joinState.players →
      ∃ room1 k1, updateGameRoom rand k joinState = some (room1, k1) ∧
        contained room1.players) ∧
    (∀ rand k room1 k1, updateGameRoom rand k joinState = some (room1, k1) →
      contained room1.players → headsInGrid joinState.players)) :=
  ⟨by decide, grid_containment_step joinState (by decide)⟩

/-! ## Self-consistency (C2) -/

/-- C2, as stated, fails: the living snake `[(7,5),(6,5),(5,5)]` has no
duplicate cell; after the message `LEFT` one tick makes its body
`[(6,5),(7,5),(6,5)]`, which repeats `(6,5)`, and it is still alive. -/
theorem self_consistency_counterexample :
    selfConsistent [("player_1",
      ({ body := [(7, 5), (6, 5), (5, 5)], direction := 1, alive := true } : Snake))] ∧
    updateGameRoom (fun _ => 0) 0 (handleWebSocketMessage "LEFT"
      { players := [("player_1",
          { body := [(7, 5), (6, 5), (5, 5)], direction := 1, alive := true })],
        food := (0, 0) }) =
      some ({ players := [("player_1",
                { body := [(6, 5), (7, 5), (6, 5)], direction := 3, alive := true })],
              food := (0, 0) }, 0) ∧
    ¬ selfConsistent [("player_1",
      ({ body := [(6, 5), (7, 5), (6, 5)], direction := 3, alive := true } : Snake))] := by
  decide

/-- C2, amended: if no living snake has a duplicate cell and the new head of
every living snake is not a cell of its own body, the tick returns and no
living snake has a duplicate cell afterwards. -/
theorem self_consistency_step (rand : Nat → Nat) (k : Nat) (room : GameRoom)
    (h : selfConsistent room.players)
    (hfree : ∀ p ∈ room.players, p.2.alive = true →
      ∃ c, newHead p.2 = some c ∧ c ∉ p.2.body) :
    ∃ room1 k1, updateGameRoom rand k room = some (room1, k1) ∧
      selfConsistent room1.players := by
  obtain ⟨⟨out, food1, k1⟩, ht⟩ := tickPlayers_defined rand room.players room.food k
    (fun p hp ha => (hfree p hp ha).imp (fun _ hc => hc.1))
  refine ⟨_, _, updateGameRoom_eq rand k room out food1 k1 ht, ?_⟩
  intro q hq ha
  obtain ⟨p, hp, _, f, c0, f1, c1, hs⟩ :=
    forall2_mem_right (tickPlayers_forall2 rand room.players room.food k out food1 k1 ht) q hq
  have hpa := stepSnake_alive_inv rand f c0 p.2 q.2 f1 c1 hs ha
  obtain ⟨nh, tl, hn, hb, _, _, hsub⟩ := stepSnake_alive rand f c0 p.2 q.2 f1 c1 hs hpa
  obtain ⟨nh1, hn1, hnot⟩ := hfree p hp hpa
  rw [hn] at hn1
  cases hn1
  rw [hb]
  exact List.nodup_cons.mpr ⟨fun hm => hnot (hsub.subset hm), (h p hp hpa).sublist hsub⟩

/-- The amended C2 at the snake `[(7,5),(6,5),(5,5)]` heading right: its new
head `(8,5)` is not one of its cells. -/
theorem self_consistency_step_witness :
    ∃ room1 k1, updateGameRoom (fun _ => 0) 0
      { players := [("player_1",
          { body := [(7, 5), (6, 5), (5, 5)], direction := 1, alive := true })],
        food := (0, 0) } = some (room1, k1) ∧ selfConsistent room1.players :=
  self_consistency_step (fun _ => 0) 0
    { players := [("player_1",
        { body := [(7, 5), (6, 5), (5, 5)], direction := 1, alive := true })],
      food := (0, 0) }
    (by decide)
    (by
      intro p hp _
      simp only [List.mem_singleton] at hp
      subst hp
      exact ⟨(8, 5), by decide, by decide⟩)

/-! ## Tick order (C3) -/

theorem canStep_exists (ps : List (String × Snake)) (h : canStep ps) :
    ∀ p ∈ ps, p.2.alive = true → ∃ c, newHead p.2 = some c := by
  intro p hp ha
  exact Option.isSome_iff_exists.mp (h p hp ha)

theorem canStep_tail (p : String × Snake) (ps : List (String × Snake))
    (h : canStep (p :: ps)) : canStep ps :=
  fun q hq => h q (List.mem_cons_of_mem _ hq)

theorem eats_iff (food : Cell) (s : Snake) :
    eats food s = true ↔ s.alive = true ∧ newHead s = some food := by
  simp [eats]

/-- An iteration on a snake that does not eat is `advance` and leaves the food
and the `rand()` index alone. -/
theorem stepSnake_noeat (rand : Nat → Nat) (food : Cell) (k : Nat) (s : Snake)
    (hd : s.alive = true → (newHead s).isSome = true) (he : eats food s = false) :
    stepSnake rand food k s = some (advance food s, food, k) := by
  rcases Bool.eq_false_or_eq_true s.alive with ha | ha
  · obtain ⟨c, hc⟩ := Option.isSome_iff_exists.mp (hd ha)
    have hne : c ≠ food := by
      intro hcf
      subst hcf
      have : eats c s = true := (eats_iff c s).mpr ⟨ha, hc⟩
      rw [he] at this
      cases this
    rw [stepSnake_move rand food k s c ha hc hne]
    simp [advance, ha, hc, hne]
  · rw [stepSnake_dead rand food k s ha]
    simp [advance, ha]

/-- An iteration on a snake that eats is `advance`, draws the new food and
reads two values of `rand()`. -/
theorem stepSnake_eats (rand : Nat → Nat) (food : Cell) (k : Nat) (s : Snake)
    (he : eats food s = true) :
    stepSnake rand food k s = some (advance food s, newFood rand k, k + 2) := by
  obtain ⟨ha, hn⟩ := (eats_iff food s).mp he
  rw [stepSnake_eat rand food k s ha hn]
  simp [advance, ha, hn]

/-- A snake that eats neither of two foods is advanced alike under both. -/
theorem advance_congr (f g : Cell) (s : Snake) (hf : eats f s = false)
    (hg : eats g s = false) : advance f s = advance g s := by
  rcases Bool.eq_false_or_eq_true s.alive with ha | ha
  · cases hn : newHead s with
    | none => simp [advance, ha, hn]
    | some c =>
      have h1 : c ≠ f := by
        intro h; subst h
        have : eats c s = true := (eats_iff c s).mpr ⟨ha, hn⟩
        rw [hf] at this; cases this
      have h2 : c ≠ g := by
        intro h; subst h
        have : eats c s = true := (eats_iff c s).mpr ⟨ha, hn⟩
        rw [hg] at this; cases this
      simp [advance, ha, hn, h1, h2]
  · simp [advance, ha]

/-- When no snake eats, the loop advances every snake and keeps the food. -/
theorem tickPlayers_noeat (rand : Nat → Nat) (ps : List (String × Snake)) :
    ∀ (food : Cell) (k : Nat), canStep ps → (∀ p ∈ ps, eats food p.2 = false) →
      tickPlayers rand food k ps =
        some (ps.map (fun p => (p.1, advance food p.2)), food, k) := by
  induction ps with
  | nil => intro food k _ _; rfl
  | cons p rest ih =>
    intro food k hd he
    have h1 := stepSnake_noeat rand food k p.2 (hd p (List.mem_cons_self _ _))
      (he p (List.mem_cons_self _ _))
    have h2 := ih food k (canStep_tail p rest hd) (fun q hq => he q (List.mem_cons_of_mem _ hq))
    rw [tickPlayers_cons rand food k p rest _ _ _ _ _ _ h1 h2]
    rfl

/-- When exactly one snake eats and no other snake heads for the food drawn,
the loop advances every snake against the old food and ends with the food
drawn. -/
theorem tickPlayers_oneeat (rand : Nat → Nat) (ps : List (String × Snake)) :
    ∀ (food : Cell) (k : Nat), canStep ps →
      ps.countP (fun p => eats food p.2) = 1 →
      (∀ p ∈ ps, eats (newFood rand k) p.2 = true → eats food p.2 = true) →
      tickPlayers rand food k ps =
        some (ps.map (fun p => (p.1, advance food p.2)), newFood rand k, k + 2) := by
  induction ps with
  | nil => intro food k _ hc _; simp at hc
  | cons p rest ih =>
    intro food k hd hc hnew
    rw [List.countP_cons] at hc
    cases he : eats food p.2 with
    | true =>
      simp only [he, if_true] at hc
      have hz : List.countP (fun p => eats food p.2) rest = 0 := by omega
      have hno : ∀ q ∈ rest, eats food q.2 = false := by
        intro q hq
        have := (List.countP_eq_zero.mp hz) q hq
        simpa using this
      have hno2 : ∀ q ∈ rest, eats (newFood rand k) q.2 = false := by
        intro q hq
        cases hq2 : eats (newFood rand k) q.2 with
        | false => rfl
        | true =>
          have := hnew q (List.mem_cons_of_mem _ hq) hq2
          rw [hno q hq] at this
          cases this
      have h1 := stepSnake_eats rand food k p.2 he
      have h2 := tickPlayers_noeat rand rest (newFood rand k) (k + 2)
        (canStep_tail p rest hd) hno2
      rw [tickPlayers_cons rand food k p rest _ _ _ _ _ _ h1 h2]
      have hmap : rest.map (fun q => (q.1, advance (newFood rand k) q.2)) =
          rest.map (fun q => (q.1, advance food q.2)) := by
        apply List.map_congr_left
        intro q hq
        rw [advance_congr (newFood rand k) food q.2 (hno2 q hq) (hno q hq)]
      rw [hmap]
      rfl
    | false =>
      simp only [he] at hc
      have hc1 : List.countP (fun p => eats food p.2) rest = 1 := by simpa using hc
      have h1 := stepSnake_noeat rand food k p.2 (hd p (List.mem_cons_self _ _)) he
      have h2 := ih food k (canStep_tail p rest hd) hc1
        (fun q hq => hnew q (List.mem_cons_of_mem _ hq))
      rw [tickPlayers_cons rand food k p rest _ _ _ _ _ _ h1 h2]
      rfl

/-- The result of a tick in which at most one snake eats, whatever the order:
every snake is advanced against the food of the start of the tick. -/
theorem tickPlayers_snapshot (rand : Nat → Nat) (ps : List (String × Snake))
    (food : Cell) (k : Nat) (hd : canStep ps)
    (hfew : ps.countP (fun p => eats food p.2) ≤ 1)
    (hnew : ps.countP (fun p => eats food p.2) = 1 →
      ∀ p ∈ ps, eats (newFood rand k) p.2 = true → eats food p.2 = true) :
    tickPlayers rand food k ps =
      some (ps.map (fun p => (p.1, advance food p.2)),
        if ps.countP (fun p => eats food p.2) = 0 then food else newFood rand k,
        if ps.countP (fun p => eats food p.2) = 0 then k else k + 2) := by
  by_cases hz : ps.countP (fun p => eats food p.2) = 0
  · rw [if_pos hz, if_pos hz]
    apply tickPlayers_noeat rand ps food k hd
    intro q hq
    have := (List.countP_eq_zero.mp hz) q hq
    simpa using this
  · rw [if_neg hz, if_neg hz]
    have h1 : ps.countP (fun p => eats food p.2) = 1 := by omega
    exact tickPlayers_oneeat rand ps food k hd h1 (hnew h1)

/-- C3, as stated, fails: with A = `[(5,5)]` heading right, B = `[(7,5)]`
heading left and the food on `(6,5)`, the order A, B makes A grow to
`[(6,5),(5,5)]` and B move to `[(6,5)]`; the order B, A makes B grow to
`[(6,5),(7,5)]` and A move to `[(6,5)]`.  The `rand()` values are the same. -/
theorem tick_order_counterexample :
    updateGameRoom (fun _ => 0) 0
      { players := [("A", { body := [(5, 5)], direction := 1, alive := true }),
                    ("B", { body := [(7, 5)], direction := 3, alive := true })],
        food := (6, 5) } =
      some ({ players := [("A", { body := [(6, 5), (5, 5)], direction := 1, alive := true }),
                          ("B", { body := [(6, 5)], direction := 3, alive := true })],
              food := (0, 0) }, 2) ∧
    updateGameRoom (fun _ => 0) 0
      { players := [("B", { body := [(7, 5)], direction := 3, alive := true }),
                    ("A", { body := [(5, 5)], direction := 1, alive := true })],
        food := (6, 5) } =
      some ({ players := [("B", { body := [(6, 5), (7, 5)], direction := 3, alive := true }),
                          ("A", { body := [(6, 5)], direction := 1, alive := true })],
              food := (0, 0) }, 2) := by
  decide

/-- C3, amended: when every living snake has a new head, at most one living
snake has its new head on the food, and (if one has) no other living snake has
its new head on the food drawn by the next two `rand()` values, then for any
two orders of the same players the tick returns, every snake is advanced in
the same way (`advance` against the food of the start of the tick), and the
food and the number of `rand()` values read are the same. -/
theorem tick_order_independent (rand : Nat → Nat) (k : Nat) (room : GameRoom)
    (qs : List (String × Snake)) (hperm : List.Perm room.players qs)
    (hd : canStep room.players)
    (hfew : room.players.countP (fun p => eats room.food p.2) ≤ 1)
    (hnew : room.players.countP (fun p => eats room.food p.2) = 1 →
      ∀ p ∈ room.players, eats (newFood rand k) p.2 = true → eats room.food p.2 = true) :
    ∃ food1 k1,
      updateGameRoom rand k room =
        some ({ players := room.players.map (fun p => (p.1, advance room.food p.2)),
                food := food1 }, k1) ∧
      updateGameRoom rand k { room with players := qs } =
        some ({ players := qs.map (fun p => (p.1, advance room.food p.2)),
                food := food1 }, k1) ∧
      List.Perm (room.players.map (fun p => (p.1, advance room.food p.2)))
        (qs.map (fun p => (p.1, advance room.food p.2))) := by
  have hcnt : qs.countP (fun p => eats room.food p.2) =
      room.players.countP (fun p => eats room.food p.2) := (hperm.countP_eq _).symm
  have hdq : canStep qs := fun q hq => hd q (hperm.mem_iff.mpr hq)
  have h1 := tickPlayers_snapshot rand room.players room.food k hd hfew hnew
  have h2 := tickPlayers_snapshot rand qs room.food k hdq (by rw [hcnt]; exact hfew)
    (by
      rw [hcnt]
      intro h q hq
      exact hnew h q (hperm.mem_iff.mpr hq))
  rw [hcnt] at h2
  exact ⟨_, _, updateGameRoom_eq rand k room _ _ _ h1,
    updateGameRoom_eq rand k { room with players := qs } _ _ _ h2, hperm.map _⟩

/-- The amended C3 at A = `[(5,5)]` heading right (its new head is the food
`(6,5)`) and B = `[(7,7)]` heading left, in the orders A, B and B, A. -/
theorem tick_order_independent_witness :
    ∃ food1 k1,
      updateGameRoom (fun _ => 0) 0
        { players := [("A", { body := [(5, 5)], direction := 1, alive := true }),
                      ("B", { body := [(7, 7)], direction := 3, alive := true })],
          food := (6, 5) } =
        some ({ players :=
                  [("A", { body := [(5, 5)], direction := 1, alive := true }),
                   ("B", { body := [(7, 7)], direction := 3, alive := true })].map
                    (fun p => (p.1, advance (6, 5) p.2)),
                food := food1 }, k1) ∧
      updateGameRoom (fun _ => 0) 0
        { players := [("B", { body := [(7, 7)], direction := 3, alive := true }),
                      ("A", { body := [(5, 5)], direction := 1, alive := true })],
          food := (6, 5) } =
        some ({ players :=
                  [("B", { body := [(7, 7)], direction := 3, alive := true }),
                   ("A", { body := [(5, 5)], direction := 1, alive := true })].map
                    (fun p => (p.1, advance (6, 5) p.2)),
                food := food1 }, k1) ∧
      List.Perm
        ([("A", ({ body := [(5, 5)], direction := 1, alive := true } : Snake)),
          ("B", { body := [(7, 7)], direction := 3, alive := true })].map
            (fun p => (p.1, advance (6, 5) p.2)))
        ([("B", ({ body := [(7, 7)], direction := 3, alive := true } : Snake)),
          ("A", { body := [(5, 5)], direction := 1, alive := true })].map
            (fun p => (p.1, advance (6, 5) p.2))) :=
  tick_order_independent (fun _ => 0) 0
    { players := [("A", { body := [(5, 5)], direction := 1, alive := true }),
                  ("B", { body := [(7, 7)], direction := 3, alive := true })],
      food := (6, 5) }
    [("B", { body := [(7, 7)], direction := 3, alive := true }),
     ("A", { body := [(5, 5)], direction := 1, alive := true })]
    (List.Perm.swap _ _ _) (by decide) (by decide) (by decide)

/-! ## One entity inside a tick -/

/-- The loop keeps the number of players. -/
theorem tickPlayers_length (rand : Nat → Nat) (ps : List (String × Snake)) (food : Cell)
    (k : Nat) (out : List (String × Snake)) (food1 : Cell) (k1 : Nat)
    (h : tickPlayers rand food k ps = some (out, food1, k1)) : out.length = ps.length :=
  (tickPlayers_forall2 rand ps food k out food1 k1 h).length_eq.symm

/-- A tick seen from one entity: the players before it have been processed,
its own iteration runs under the food they left, the players after it follow. -/
theorem updateGameRoom_at (rand : Nat → Nat) (k : Nat) (room : GameRoom)
    (l1 l2 : List (String × Snake)) (id : String) (s s1 : Snake)
    (hp : room.players = l1 ++ (id, s) :: l2) (hd : canStep l2)
    (out1 : List (String × Snake)) (food1 food2 : Cell) (k1 k2 : Nat)
    (h1 : tickPlayers rand room.food k l1 = some (out1, food1, k1))
    (h2 : stepSnake rand food1 k1 s = some (s1, food2, k2)) :
    ∃ out2 food3 k3,
      updateGameRoom rand k room =
        some ({ players := out1 ++ (id, s1) :: out2, food := food3 }, k3) ∧
      out1.length = l1.length ∧ out2.length = l2.length := by
  obtain ⟨⟨out2, food3, k3⟩, h3⟩ :=
    tickPlayers_defined rand l2 food2 k2 (canStep_exists l2 hd)
  have h4 := tickPlayers_cons rand food1 k1 (id, s) l2 s1 food2 k2 out2 food3 k3 h2 h3
  have h5 := tickPlayers_append rand l1 ((id, s) :: l2) room.food k out1 food1 k1 _ food3 k3
    h1 h4
  rw [← hp] at h5
  exact ⟨out2, food3, k3, updateGameRoom_eq rand k room _ food3 k3 h5,
    tickPlayers_length rand l1 room.food k out1 food1 k1 h1,
    tickPlayers_length rand l2 food2 k2 out2 food3 k3 h3⟩

/-! ## Growth law (C4) -/

/-- C4: a living snake whose new head is the food at the moment the loop
reaches it (the players `l1` before it have left the food `food1`) ends the
tick with the body "new head, then the whole old body": one segment more, and
alive.  The tick returns as soon as the players after it can step. -/
theorem growth_law (rand : Nat → Nat) (k : Nat) (room : GameRoom)
    (l1 l2 : List (String × Snake)) (id : String) (s : Snake)
    (hp : room.players = l1 ++ (id, s) :: l2) (hd : canStep l2)
    (out1 : List (String × Snake)) (food1 : Cell) (k1 : Nat)
    (h1 : tickPlayers rand room.food k l1 = some (out1, food1, k1))
    (ha : s.alive = true) (hn : newHead s = some food1) :
    ∃ out2 food3 k3,
      updateGameRoom rand k room =
        some ({ players := out1 ++ (id, { s with body := food1 :: s.body }) :: out2,
                food := food3 }, k3) ∧
      out1.length = l1.length ∧ out2.length = l2.length ∧
      ({ s with body := food1 :: s.body } : Snake).body.length = s.body.length + 1 ∧
      ({ s with body := food1 :: s.body } : Snake).alive = true := by
  obtain ⟨out2, food3, k3, hu, hl1, hl2⟩ :=
    updateGameRoom_at rand k room l1 l2 id s _ hp hd out1 food1 _ k1 _ h1
      (stepSnake_eat rand food1 k1 s ha hn)
  exact ⟨out2, food3, k3, hu, hl1, hl2, by simp, ha⟩

/-- C4 at the snake `[(5,5)]` heading right with the food on `(6,5)`: the body
becomes `[(6,5),(5,5)]`, of length 2. -/
theorem growth_law_witness :
    ∃ out2 food3 k3,
      updateGameRoom (fun _ => 0) 0
          { players := [("player_1", joinSnake)], food := (6, 5) } =
        some ({ players := [] ++
                  ("player_1", { joinSnake with body := (6, 5) :: joinSnake.body }) :: out2,
                food := food3 }, k3) ∧
      ([] : List (String × Snake)).length = ([] : List (String × Snake)).length ∧
      out2.length = ([] : List (String × Snake)).length ∧
      ({ joinSnake with body := (6, 5) :: joinSnake.body } : Snake).body.length =
        joinSnake.body.length + 1 ∧
      ({ joinSnake with body := (6, 5) :: joinSnake.body } : Snake).alive = true :=
  growth_law (fun _ => 0) 0 { players := [("player_1", joinSnake)], food := (6, 5) }
    [] [] "player_1" joinSnake rfl (by decide) [] (6, 5) 0 rfl rfl rfl

/-! ## Target relocation (C5) -/

/-- The food drawn lies in the 20 x 20 grid. -/
theorem inGrid_newFood (rand : Nat → Nat) (k : Nat) : inGrid (newFood rand k) := by
  unfold inGrid newFood
  simp only
  omega

/-- After the loop the food is either untouched, with no `rand()` value read,
or it is the food drawn from the last two values read. -/
theorem tickPlayers_food (rand : Nat → Nat) (ps : List (String × Snake)) :
    ∀ (food : Cell) (k : Nat) (out : List (String × Snake)) (food1 : Cell) (k1 : Nat),
      tickPlayers rand food k ps = some (out, food1, k1) →
      (k1 = k ∧ food1 = food) ∨ (k + 2 ≤ k1 ∧ food1 = newFood rand (k1 - 2)) := by
  induction ps with
  | nil =>
    intro food k out food1 k1 h
    simp only [tickPlayers, Option.some.injEq, Prod.mk.injEq] at h
    exact Or.inl ⟨h.2.2.symm, h.2.1.symm⟩
  | cons p rest ih =>
    intro food k out food1 k1 h
    obtain ⟨s1, f, c, rest1, h1, h2, _⟩ :=
      tickPlayers_cons_inv rand food k p rest out food1 k1 h
    have hr := ih f c rest1 food1 k1 h2
    rcases stepSnake_cases rand food k p.2 s1 f c h1 with hc | hc | hc
    · obtain ⟨_, _, hf, hk⟩ := hc
      subst hf hk
      exact hr
    · obtain ⟨_, _, _, hf, hk⟩ := hc
      subst hf hk
      rcases hr with ⟨e1, e2⟩ | ⟨e1, e2⟩
      · refine Or.inr ⟨by omega, ?_⟩
        rw [e2, e1]
        rfl
      · exact Or.inr ⟨by omega, e2⟩
    · obtain ⟨_, _, _, _, _, hf, hk⟩ := hc
      subst hf hk
      exact hr

/-- When some living snake has its new head on the food, the loop reads at
least two `rand()` values. -/
theorem tickPlayers_eats (rand : Nat → Nat) (ps : List (String × Snake)) :
    ∀ (food : Cell) (k : Nat) (out : List (String × Snake)) (food1 : Cell) (k1 : Nat),
      tickPlayers rand food k ps = some (out, food1, k1) →
      (∃ p ∈ ps, eats food p.2 = true) → k + 2 ≤ k1 := by
  induction ps with
  | nil => intro food k out food1 k1 _ he; simp at he
  | cons p rest ih =>
    intro food k out food1 k1 h he
    obtain ⟨s1, f, c, rest1, h1, h2, _⟩ :=
      tickPlayers_cons_inv rand food k p rest out food1 k1 h
    have hmono : c ≤ k1 := by
      rcases tickPlayers_food rand rest f c rest1 food1 k1 h2 with hm | hm <;> omega
    cases hep : eats food p.2 with
    | true =>
      rw [stepSnake_eats rand food k p.2 hep] at h1
      simp only [Option.some.injEq, Prod.mk.injEq] at h1
      omega
    | false =>
      obtain ⟨q, hq, hqe⟩ := he
      have hq1 : q ∈ rest := by
        rcases List.mem_cons.mp hq with rfl | hq1
        · rw [hep] at hqe; cases hqe
        · exact hq1
      rcases stepSnake_cases rand food k p.2 s1 f c h1 with hc | hc | hc
      · obtain ⟨_, _, hf, hk⟩ := hc
        rw [hf, hk] at h2
        exact ih food k rest1 food1 k1 h2 ⟨q, hq1, hqe⟩
      · have : eats food p.2 = true := (eats_iff food p.2).mpr ⟨hc.1, hc.2.1⟩
        rw [hep] at this; cases this
      · obtain ⟨_, _, _, _, _, hf, hk⟩ := hc
        rw [hf, hk] at h2
        exact ih food k rest1 food1 k1 h2 ⟨q, hq1, hqe⟩

/-- C5, as stated, fails: the snake `[(5,5)]` heading right eats the food on
`(6,5)`; with both `rand()` values 5 the new food is `(5,5)`, a segment of the
living snake `[(6,5),(5,5)]` that has just grown. -/
theorem target_relocation_counterexample :
    updateGameRoom (fun _ => 5) 0 { players := [("player_1", joinSnake)], food := (6, 5) } =
      some ({ players := [("player_1",
                { body := [(6, 5), (5, 5)], direction := 1, alive := true })],
              food := (5, 5) }, 2) ∧
    ((5, 5) : Cell) ∈ ({ body := [(6, 5), (5, 5)], direction := 1, alive := true } : Snake).body := by
  decide

/-- C5, amended: when every living snake can step and some living snake has
its new head on the food, the tick returns, has read at least two `rand()`
values, and the new food is `(r1 % 20, r2 % 20)` for the last two values `r1`,
`r2` read, in this order: a cell of the 20 x 20 grid (nothing makes it avoid
the segments of the living snakes). -/
theorem target_relocation (rand : Nat → Nat) (k : Nat) (room : GameRoom)
    (hd : canStep room.players)
    (he : 0 < room.players.countP (fun p => eats room.food p.2)) :
    ∃ room1 k1, updateGameRoom rand k room = some (room1, k1) ∧ k + 2 ≤ k1 ∧
      room1.food = (((rand (k1 - 2) % 20 : Nat) : Int), ((rand (k1 - 1) % 20 : Nat) : Int)) ∧
      inGrid room1.food := by
  obtain ⟨⟨out, food1, k1⟩, ht⟩ :=
    tickPlayers_defined rand room.players room.food k (canStep_exists _ hd)
  have hk : k + 2 ≤ k1 := by
    apply tickPlayers_eats rand room.players room.food k out food1 k1 ht
    obtain ⟨p, hp, hpe⟩ := List.countP_pos_iff.mp he
    exact ⟨p, hp, hpe⟩
  have hf : food1 = newFood rand (k1 - 2) := by
    rcases tickPlayers_food rand room.players room.food k out food1 k1 ht with hm | hm
    · omega
    · exact hm.2
  refine ⟨_, _, updateGameRoom_eq rand k room out food1 k1 ht, hk, ?_, ?_⟩
  · show food1 = _
    rw [hf, newFood]
    have : k1 - 2 + 1 = k1 - 1 := by omega
    rw [this]
  · show inGrid food1
    rw [hf]
    exact inGrid_newFood rand (k1 - 2)

/-- The amended C5 at the snake `[(5,5)]` heading right with the food on
`(6,5)` and the `rand()` values 5, 5. -/
theorem target_relocation_witness :
    ∃ room1 k1, updateGameRoom (fun _ => 5) 0
        { players := [("player_1", joinSnake)], food := (6, 5) } = some (room1, k1) ∧
      0 + 2 ≤ k1 ∧
      room1.food = ((((fun _ => 5) (k1 - 2) % 20 : Nat) : Int),
        (((fun _ => 5) (k1 - 1) % 20 : Nat) : Int)) ∧
      inGrid room1.food :=
  target_relocation (fun _ => 5) 0 { players := [("player_1", joinSnake)], food := (6, 5) }
    (by decide) (by decide)

/-! ## Bounds (C6) -/

/-- C6, as stated, fails: the living snake `[(0,0)]` heading up has its new
head `(0,-1)` outside the grid; after one tick it is still alive, with body
`[(0,-1)]`. -/
theorem bounds_check_counterexample :
    ¬ inGrid (0, -1) ∧
    newHead { body := [(0, 0)], direction := 0, alive := true } = some (0, -1) ∧
    updateGameRoom (fun _ => 0) 0
      { players := [("player_1", { body := [(0, 0)], direction := 0, alive := true })],
        food := (5, 5) } =
      some ({ players := [("player_1",
                { body := [(0, -1)], direction := 0, alive := true })],
              food := (5, 5) }, 0) := by
  decide

/-- C6, amended: a living snake whose new head `nh` falls outside the grid is
still in the player list after the tick, under the same id and at the same
place, alive and with the same heading; its body is `nh` followed by its whole
old body if `nh` is the food at the moment the loop reaches it (the food
`food1` left by the players `l1` before it), and `nh` followed by its old body
without the last segment otherwise.  The tick returns when the living snakes
can step. -/
theorem out_of_grid_stays_alive (rand : Nat → Nat) (k : Nat) (room : GameRoom)
    (l1 l2 : List (String × Snake)) (id : String) (s : Snake)
    (hp : room.players = l1 ++ (id, s) :: l2) (hd : canStep room.players)
    (ha : s.alive = true) (nh : Cell) (hn : newHead s = some nh) (hout : ¬ inGrid nh) :
    ∃ out1 food1 k1 out2 food3 k3,
      tickPlayers rand room.food k l1 = some (out1, food1, k1) ∧
      updateGameRoom rand k room =
        some ({ players := out1 ++
                  (id, { body := if nh = food1 then nh :: s.body else nh :: s.body.dropLast,
                         direction := s.direction, alive := true }) :: out2,
                food := food3 }, k3) ∧
      out1.length = l1.length ∧ out2.length = l2.length ∧ ¬ inGrid nh := by
  have hd1 : canStep l1 := fun q hq => hd q (by rw [hp]; exact List.mem_append_left _ hq)
  have hd2 : canStep l2 := fun q hq =>
    hd q (by rw [hp]; exact List.mem_append_right _ (List.mem_cons_of_mem _ hq))
  obtain ⟨⟨out1, food1, k1⟩, h1⟩ :=
    tickPlayers_defined rand l1 room.food k (canStep_exists l1 hd1)
  have hb : (nh :: s.body).dropLast = nh :: s.body.dropLast := by
    cases hs : s.body with
    | nil => simp [newHead, hs] at hn
    | cons c t => simp [List.dropLast]
  have h2 : ∃ f2 c2, stepSnake rand food1 k1 s =
      some ({ body := if nh = food1 then nh :: s.body else nh :: s.body.dropLast,
              direction := s.direction, alive := true }, f2, c2) := by
    by_cases hf : nh = food1
    · refine ⟨newFood rand k1, k1 + 2, ?_⟩
      rw [stepSnake_eat rand food1 k1 s ha (hf ▸ hn)]
      simp [hf, ha]
    · refine ⟨food1, k1, ?_⟩
      rw [stepSnake_move rand food1 k1 s nh ha hn hf, hb]
      simp [hf, ha]
  obtain ⟨f2, c2, h2⟩ := h2
  obtain ⟨out2, food3, k3, hu, hl1, hl2⟩ :=
    updateGameRoom_at rand k room l1 l2 id s _ hp hd2 out1 food1 f2 k1 c2 h1 h2
  exact ⟨out1, food1, k1, out2, food3, k3, h1, hu, hl1, hl2, hout⟩

/-- The amended C6 at the snake `[(0,0)]` heading up, whose new head `(0,-1)`
is not the food `(5,5)`: its body after the tick is `[(0,-1)]`. -/
theorem out_of_grid_stays_alive_witness :
    ∃ out1 food1 k1 out2 food3 k3,
      tickPlayers (fun _ => 0) (5, 5) 0 [] = some (out1, food1, k1) ∧
      updateGameRoom (fun _ => 0) 0
          { players := [("player_1", { body := [(0, 0)], direction := 0, alive := true })],
            food := (5, 5) } =
        some ({ players := out1 ++
                  ("player_1",
                    { body := if ((0, -1) : Cell) = food1 then
                          (0, -1) ::
                            ({ body := [(0, 0)], direction := 0, alive := true } : Snake).body
                        else
                          (0, -1) ::
                            ({ body := [(0, 0)], direction := 0, alive := true } :
                              Snake).body.dropLast,
                      direction :=
                        ({ body := [(0, 0)], direction := 0, alive := true } : Snake).direction,
                      alive := true }) :: out2,
                food := food3 }, k3) ∧
      out1.length = ([] : List (String × Snake)).length ∧
      out2.length = ([] : List (String × Snake)).length ∧
      ¬ inGrid (0, -1) :=
  out_of_grid_stays_alive (fun _ => 0) 0
    { players := [("player_1", { body := [(0, 0)], direction := 0, alive := true })],
      food := (5, 5) }
    [] [] "player_1" { body := [(0, 0)], direction := 0, alive := true } rfl
    (by decide) rfl (0, -1) (by decide) (by decide)

/-! ## Collisions (C7) -/

/-- C7, as stated, fails: A = `[(5,5)]` heading right has its new head `(6,5)`
on a segment of the living snake B = `[(6,5)]`, and `(6,5)` is not the food;
after one tick A is alive and its body is `[(6,5)]`, not `[(5,5)]`. -/
theorem collision_check_counterexample :
    ((6, 5) : Cell) ∈ ({ body := [(6, 5)], direction := 1, alive := true } : Snake).body ∧
    newHead { body := [(5, 5)], direction := 1, alive := true } = some (6, 5) ∧
    updateGameRoom (fun _ => 0) 0
      { players := [("A", { body := [(5, 5)], direction := 1, alive := true }),
                    ("B", { body := [(6, 5)], direction := 1, alive := true })],
        food := (0, 0) } =
      some ({ players := [("A", { body := [(6, 5)], direction := 1, alive := true }),
                          ("B", { body := [(7, 5)], direction := 1, alive := true })],
              food := (0, 0) }, 0) := by
  decide

/-- C7, amended: a living snake whose new head is not the food at the moment
the loop reaches it (the players `l1` before it have left the food `food1`)
ends the tick alive, with the body "new head, then the old body without its
last segment", whether or not the new head is a segment of a living snake:
the tick makes no collision check. -/
theorem collision_moves_on (rand : Nat → Nat) (k : Nat) (room : GameRoom)
    (l1 l2 : List (String × Snake)) (id : String) (s : Snake)
    (hp : room.players = l1 ++ (id, s) :: l2) (hd : canStep l2)
    (out1 : List (String × Snake)) (food1 : Cell) (k1 : Nat)
    (h1 : tickPlayers rand room.food k l1 = some (out1, food1, k1))
    (ha : s.alive = true) (nh : Cell) (hn : newHead s = some nh) (hne : nh ≠ food1) :
    ∃ out2 food3 k3,
      updateGameRoom rand k room =
        some ({ players := out1 ++
                  (id, { body := nh :: s.body.dropLast, direction := s.direction,
                         alive := true }) :: out2,
                food := food3 }, k3) ∧
      out1.length = l1.length ∧ out2.length = l2.length := by
  have hb : (nh :: s.body).dropLast = nh :: s.body.dropLast := by
    cases hs : s.body with
    | nil => simp [newHead, hs] at hn
    | cons c t => simp [List.dropLast]
  have h2 := stepSnake_move rand food1 k1 s nh ha hn hne
  rw [hb, ha] at h2
  exact updateGameRoom_at rand k room l1 l2 id s _ hp hd out1 food1 _ k1 _ h1 h2

/-- The amended C7 at A = `[(5,5)]` heading right, first in the list, with B =
`[(6,5)]` on its new head `(6,5)` and the food on `(0,0)`. -/
theorem collision_moves_on_witness :
    ∃ out2 food3 k3,
      updateGameRoom (fun _ => 0) 0
          { players := [("A", { body := [(5, 5)], direction := 1, alive := true }),
                        ("B", { body := [(6, 5)], direction := 1, alive := true })],
            food := (0, 0) } =
        some ({ players := [] ++
                  ("A", { body := (6, 5) ::
                            ({ body := [(5, 5)], direction := 1, alive := true } :
                              Snake).body.dropLast,
                          direction :=
                            ({ body := [(5, 5)], direction := 1, alive := true } :
                              Snake).direction,
                          alive := true }) :: out2,
                food := food3 }, k3) ∧
      ([] : List (String × Snake)).length = ([] : List (String × Snake)).length ∧
      out2.length =
        [("B", ({ body := [(6, 5)], direction := 1, alive := true } : Snake))].length :=
  collision_moves_on (fun _ => 0) 0
    { players := [("A", { body := [(5, 5)], direction := 1, alive := true }),
                  ("B", { body := [(6, 5)], direction := 1, alive := true })],
      food := (0, 0) }
    [] [("B", { body := [(6, 5)], direction := 1, alive := true })] "A"
    { body := [(5, 5)], direction := 1, alive := true } rfl (by decide)
    [] (0, 0) 0 rfl rfl (6, 5) (by decide) (by decide)

/-! ## Normal move (C8) -/

/-- The new head of a snake `h :: t`, spelled out per heading. -/
theorem newHead_cons (s : Snake) (h : Cell) (t : List Cell) (nh : Cell)
    (hb : s.body = h :: t) (hn : newHead s = some nh) :
    (s.direction = 0 → nh = (h.1, h.2 - 1)) ∧ (s.direction = 1 → nh = (h.1 + 1, h.2)) ∧
    (s.direction = 2 → nh = (h.1, h.2 + 1)) ∧ (s.direction = 3 → nh = (h.1 - 1, h.2)) := by
  simp only [newHead, hb, shiftHead] at hn
  refine ⟨?_, ?_, ?_, ?_⟩ <;> intro hdir <;> rw [hdir] at hn <;> simp at hn <;> exact hn.2.symm

/-- C8: when every living snake has a new head that is not the food and lies
in the grid, the tick returns with the same food and without reading `rand()`;
it keeps ids, headings and alive flags, leaves dead snakes as they are, and
turns the body `h :: t` of each living snake into "new head, then the old body
without its last segment", of the same length, the new head being `h` shifted
by the heading (0: y-1, 1: x+1, 2: y+1, 3: x-1).  Whether a new head hits a
segment of a living snake plays no part. -/
theorem normal_move (rand : Nat → Nat) (k : Nat) (room : GameRoom)
    (h : ∀ p ∈ room.players, p.2.alive = true →
      ∃ nh, newHead p.2 = some nh ∧ nh ≠ room.food ∧ inGrid nh) :
    ∃ out, updateGameRoom rand k room = some ({ players := out, food := room.food }, k) ∧
      List.Forall₂ (fun p q =>
        q.1 = p.1 ∧ q.2.direction = p.2.direction ∧ q.2.alive = p.2.alive ∧
        (p.2.alive = false → q.2.body = p.2.body) ∧
        (p.2.alive = true → ∃ hd tl nh, p.2.body = hd :: tl ∧
          q.2.body = nh :: p.2.body.dropLast ∧ q.2.body.length = p.2.body.length ∧
          (p.2.direction = 0 → nh = (hd.1, hd.2 - 1)) ∧
          (p.2.direction = 1 → nh = (hd.1 + 1, hd.2)) ∧
          (p.2.direction = 2 → nh = (hd.1, hd.2 + 1)) ∧
          (p.2.direction = 3 → nh = (hd.1 - 1, hd.2)))) room.players out := by
  have hd : canStep room.players := by
    intro p hp ha
    obtain ⟨nh, hn, _⟩ := h p hp ha
    rw [hn]; rfl
  have hno : ∀ p ∈ room.players, eats room.food p.2 = false := by
    intro p hp
    cases he : eats room.food p.2 with
    | false => rfl
    | true =>
      obtain ⟨ha, hn⟩ := (eats_iff room.food p.2).mp he
      obtain ⟨nh, hn1, hne, _⟩ := h p hp ha
      rw [hn] at hn1
      cases hn1
      exact absurd rfl hne
  have ht := tickPlayers_noeat rand room.players room.food k hd hno
  refine ⟨_, updateGameRoom_eq rand k room _ _ _ ht, ?_⟩
  rw [List.forall₂_map_right_iff, List.forall₂_same]
  intro p hp
  rcases Bool.eq_false_or_eq_true p.2.alive with ha | ha
  · obtain ⟨nh, hn, hne, _⟩ := h p hp ha
    have hadv : advance room.food p.2 =
        { body := (nh :: p.2.body).dropLast, direction := p.2.direction,
          alive := p.2.alive } := by
      simp [advance, ha, hn, hne]
    obtain ⟨c, t, hb⟩ : ∃ c t, p.2.body = c :: t := by
      cases hb : p.2.body with
      | nil => simp [newHead, hb] at hn
      | cons c t => exact ⟨c, t, rfl⟩
    refine ⟨rfl, ?_, ?_, ?_, ?_⟩
    · simp only [hadv]
    · simp only [hadv]
    · intro hf
      rw [ha] at hf
      cases hf
    · intro _
      refine ⟨c, t, nh, hb, ?_, ?_, newHead_cons p.2 c t nh hb hn⟩
      · simp only [hadv, hb, List.dropLast]
      · simp only [hadv, hb, List.dropLast, List.length_cons, List.length_dropLast]
        simp
  · have hadv : advance room.food p.2 = p.2 := by simp [advance, ha]
    refine ⟨rfl, ?_, ?_, ?_, ?_⟩
    · simp only [hadv]
    · simp only [hadv]
    · intro _
      simp only [hadv]
    · intro hf
      rw [ha] at hf
      cases hf

/-- C8 at the snake `[(7,5),(6,5),(5,5)]` heading right with the food on
`(0,0)`: its new head `(8,5)` is in the grid and is not the food. -/
theorem normal_move_witness :
    ∃ out, updateGameRoom (fun _ => 0) 0
        { players := [("player_1",
            { body := [(7, 5), (6, 5), (5, 5)], direction := 1, alive := true })],
          food := (0, 0) } = some ({ players := out, food := (0, 0) }, 0) ∧
      List.Forall₂ (fun p q =>
        q.1 = p.1 ∧ q.2.direction = p.2.direction ∧ q.2.alive = p.2.alive ∧
        (p.2.alive = false → q.2.body = p.2.body) ∧
        (p.2.alive = true → ∃ hd tl nh, p.2.body = hd :: tl ∧
          q.2.body = nh :: p.2.body.dropLast ∧ q.2.body.length = p.2.body.length ∧
          (p.2.direction = 0 → nh = (hd.1, hd.2 - 1)) ∧
          (p.2.direction = 1 → nh = (hd.1 + 1, hd.2)) ∧
          (p.2.direction = 2 → nh = (hd.1, hd.2 + 1)) ∧
          (p.2.direction = 3 → nh = (hd.1 - 1, hd.2))))
        [("player_1",
          ({ body := [(7, 5), (6, 5), (5, 5)], direction := 1, alive := true } : Snake))] out :=
  normal_move (fun _ => 0) 0
    { players := [("player_1",
        { body := [(7, 5), (6, 5), (5, 5)], direction := 1, alive := true })],
      food := (0, 0) }
    (by
      intro p hp _
      simp only [List.mem_singleton] at hp
      subst hp
      exact ⟨(8, 5), by decide, by decide, by decide⟩)

/-! ## Commands (C9, C10) -/

/-- A recognised command sets the heading of a snake to the heading it stands
for and changes nothing else. -/
theorem setDirection_heading (message : String) (d : Int) (s : Snake)
    (hm : headingOf message = some d) : setDirection message s = { s with direction := d } := by
  unfold headingOf at hm
  unfold setDirection
  split_ifs at hm ⊢ <;> simp_all

/-- Any other message leaves a snake as it is. -/
theorem setDirection_unknown (message : String) (s : Snake)
    (h1 : message ≠ "UP") (h2 : message ≠ "RIGHT") (h3 : message ≠ "DOWN")
    (h4 : message ≠ "LEFT") : setDirection message s = s := by
  simp [setDirection, h1, h2, h3, h4]

/-- C9, as stated, fails: the snake `[(6,5),(5,5)]` of length 2 heads right
(1); the command `LEFT` stands for 3, the opposite of 1, and after it the
stored heading is 3. -/
theorem no_reverse_counterexample :
    headingOf "LEFT" = some 3 ∧ opposite 3 = 1 ∧
    handleWebSocketMessage "LEFT"
      { players := [("player_1",
          { body := [(6, 5), (5, 5)], direction := 1, alive := true })],
        food := (0, 0) } =
      { players := [("player_1",
          { body := [(6, 5), (5, 5)], direction := 3, alive := true })],
        food := (0, 0) } := by
  decide

/-- C9, amended: for every room, a recognised command sets the stored heading
of every snake of the room to the heading it stands for and changes nothing
else; in particular every snake of length > 1 whose heading is the exact
opposite of the commanded one has its stored heading changed to the commanded
one (there is no reverse guard). -/
theorem reverse_command_applied (message : String) (d : Int) (room : GameRoom)
    (hm : headingOf message = some d) :
    (handleWebSocketMessage message room).players =
        room.players.map (fun q => (q.1, { q.2 with direction := d })) ∧
      (handleWebSocketMessage message room).food = room.food ∧
      ∀ p ∈ room.players, 1 < p.2.body.length → p.2.direction = opposite d →
        (p.1, { p.2 with direction := d }) ∈ (handleWebSocketMessage message room).players ∧
          d ≠ p.2.direction := by
  have hmap : (handleWebSocketMessage message room).players =
      room.players.map (fun q => (q.1, { q.2 with direction := d })) := by
    simp only [handleWebSocketMessage]
    apply List.map_congr_left
    intro q _
    rw [setDirection_heading message d q.2 hm]
  refine ⟨hmap, rfl, ?_⟩
  intro p hp _ hop
  constructor
  · rw [hmap]
    exact List.mem_map.mpr ⟨p, hp, rfl⟩
  · rw [hop]
    unfold headingOf at hm
    unfold opposite
    split_ifs at hm <;> simp at hm <;> subst hm <;> decide

/-- The amended C9 at the join state with the command `UP` (a single snake of
length 1) and at the snake `[(6,5),(5,5)]` heading right with the command
`LEFT`. -/
theorem reverse_command_applied_witness :
    ((handleWebSocketMessage "UP" joinState).players =
        joinState.players.map (fun q => (q.1, { q.2 with direction := 0 })) ∧
      (handleWebSocketMessage "UP" joinState).food = joinState.food ∧
      ∀ p ∈ joinState.players, 1 < p.2.body.length → p.2.direction = opposite 0 →
        (p.1, { p.2 with direction := 0 }) ∈ (handleWebSocketMessage "UP" joinState).players ∧
          (0 : Int) ≠ p.2.direction) ∧
    ((handleWebSocketMessage "LEFT"
          { players := [("player_1",
              { body := [(6, 5), (5, 5)], direction := 1, alive := true })],
            food := (0, 0) }).players =
        [("player_1", ({ body := [(6, 5), (5, 5)], direction := 1, alive := true } : Snake))].map
          (fun q => (q.1, { q.2 with direction := 3 })) ∧
      (handleWebSocketMessage "LEFT"
          { players := [("player_1",
              { body := [(6, 5), (5, 5)], direction := 1, alive := true })],
            food := (0, 0) }).food = (0, 0) ∧
      ∀ p ∈ [("player_1",
            ({ body := [(6, 5), (5, 5)], direction := 1, alive := true } : Snake))],
        1 < p.2.body.length → p.2.direction = opposite 3 →
        (p.1, { p.2 with direction := 3 }) ∈
            (handleWebSocketMessage "LEFT"
              { players := [("player_1",
                  { body := [(6, 5), (5, 5)], direction := 1, alive := true })],
                food := (0, 0) }).players ∧
          (3 : Int) ≠ p.2.direction) :=
  ⟨reverse_command_applied "UP" 0 joinState (by decide),
    reverse_command_applied "LEFT" 3
      { players := [("player_1",
          { body := [(6, 5), (5, 5)], direction := 1, alive := true })],
        food := (0, 0) }
      (by decide)⟩

/-- C10: a message other than `UP`, `RIGHT`, `DOWN` and `LEFT` leaves the whole
room as it is: every entity (id, body, heading, alive flag) and the food.  The
function is total, so the call returns. -/
theorem unknown_command_ignored (message : String) (room : GameRoom)
    (h1 : message ≠ "UP") (h2 : message ≠ "RIGHT") (h3 : message ≠ "DOWN")
    (h4 : message ≠ "LEFT") : handleWebSocketMessage message room = room := by
  have hmap : room.players.map (fun p => (p.1, setDirection message p.2)) = room.players := by
    conv_rhs => rw [← List.map_id room.players]
    apply List.map_congr_left
    intro p _
    rw [setDirection_unknown message p.2 h1 h2 h3 h4]
    rfl
  simp only [handleWebSocketMessage, hmap]

/-- C10 at the lower-case message `up` and the join state. -/
theorem unknown_command_ignored_witness :
    "up" ≠ "UP" ∧ "up" ≠ "RIGHT" ∧ "up" ≠ "DOWN" ∧ "up" ≠ "LEFT" ∧
    handleWebSocketMessage "up" joinState = joinState :=
  ⟨by decide, by decide, by decide, by decide,
    unknown_command_ignored "up" joinState (by decide) (by decide) (by decide) (by decide)⟩

/-! ## Command addressing (C11) -/

theorem forall2_trans {α : Type} {R : α → α → Prop}
    (hR : ∀ a b c, R a b → R b c → R a c) :
    ∀ {l1 l2 l3 : List α}, List.Forall₂ R l1 l2 → List.Forall₂ R l2 l3 →
      List.Forall₂ R l1 l3 := by
  intro l1 l2 l3 h12
  induction h12 generalizing l3 with
  | nil => intro h23; cases h23; exact List.Forall₂.nil
  | cons hab _ ih =>
    intro h23
    cases h23 with
    | cons hbc hrest => exact List.Forall₂.cons (hR _ _ _ hab hbc) (ih hrest)

/-- An iteration keeps the alive flag and the heading, and leaves a dead snake
as it is. -/
theorem stepSnake_frame (rand : Nat → Nat) (food : Cell) (k : Nat) (s s1 : Snake)
    (food1 : Cell) (k1 : Nat) (h : stepSnake rand food k s = some (s1, food1, k1)) :
    s1.alive = s.alive ∧ s1.direction = s.direction ∧ (s.alive = false → s1 = s) := by
  rcases stepSnake_cases rand food k s s1 food1 k1 h with hc | hc | hc
  · obtain ⟨_, hs, _, _⟩ := hc
    subst hs
    exact ⟨rfl, rfl, fun _ => rfl⟩
  · obtain ⟨ha, _, hs, _, _⟩ := hc
    subst hs
    exact ⟨rfl, rfl, fun hf => by rw [ha] at hf; cases hf⟩
  · obtain ⟨ha, _, _, _, hs, _, _⟩ := hc
    subst hs
    exact ⟨rfl, rfl, fun hf => by rw [ha] at hf; cases hf⟩

/-- A tick keeps ids and alive flags, and leaves dead snakes as they are. -/
theorem updateGameRoom_frame (rand : Nat → Nat) (k : Nat) (room room1 : GameRoom) (k1 : Nat)
    (h : updateGameRoom rand k room = some (room1, k1)) :
    List.Forall₂ (fun p q => q.1 = p.1 ∧ q.2.alive = p.2.alive ∧
      (p.2.alive = false → q.2 = p.2)) room.players room1.players := by
  have ht := updateGameRoom_inv rand k room room1 k1 h
  refine (tickPlayers_forall2 rand room.players room.food k _ _ _ ht).imp ?_
  intro p q hpq
  obtain ⟨hid, f, c, f1, c1, hs⟩ := hpq
  have hf := stepSnake_frame rand f c p.2 q.2 f1 c1 hs
  exact ⟨hid, hf.1, hf.2.2⟩

/-- A message keeps ids, bodies and alive flags, place by place. -/
theorem handleWebSocketMessage_frame (message : String) (room : GameRoom) :
    List.Forall₂ (fun p q => q.1 = p.1 ∧ q.2.body = p.2.body ∧ q.2.alive = p.2.alive)
      room.players (handleWebSocketMessage message room).players := by
  simp only [handleWebSocketMessage]
  rw [List.forall₂_map_right_iff, List.forall₂_same]
  intro p _
  refine ⟨rfl, ?_, ?_⟩
  · show (setDirection message p.2).body = p.2.body
    unfold setDirection; split_ifs <;> rfl
  · show (setDirection message p.2).alive = p.2.alive
    unfold setDirection; split_ifs <;> rfl

/-- Along any sequence of ticks and messages that returns, ids and alive flags
stay, and the body of a dead snake stays. -/
theorem run_frame (rand : Nat → Nat) (es : List Event) :
    ∀ (k : Nat) (room room1 : GameRoom) (k1 : Nat),
      run rand k room es = some (room1, k1) →
      List.Forall₂ (fun p q => q.1 = p.1 ∧ q.2.alive = p.2.alive ∧
        (p.2.alive = false → q.2.body = p.2.body)) room.players room1.players := by
  have htr : ∀ a b c : String × Snake,
      (b.1 = a.1 ∧ b.2.alive = a.2.alive ∧ (a.2.alive = false → b.2.body = a.2.body)) →
      (c.1 = b.1 ∧ c.2.alive = b.2.alive ∧ (b.2.alive = false → c.2.body = b.2.body)) →
      (c.1 = a.1 ∧ c.2.alive = a.2.alive ∧ (a.2.alive = false → c.2.body = a.2.body)) := by
    intro a b c hab hbc
    refine ⟨hbc.1.trans hab.1, hbc.2.1.trans hab.2.1, ?_⟩
    intro ha
    rw [hbc.2.2 (hab.2.1.trans ha), hab.2.2 ha]
  induction es with
  | nil =>
    intro k room room1 k1 h
    simp only [run, Option.some.injEq, Prod.mk.injEq] at h
    rw [← h.1]
    exact List.forall₂_same.mpr (fun p _ => ⟨rfl, rfl, fun _ => rfl⟩)
  | cons e rest ih =>
    intro k room room1 k1 h
    cases e with
    | tick =>
      simp only [run] at h
      cases hu : updateGameRoom rand k room with
      | none => simp [hu] at h
      | some r =>
        obtain ⟨room2, k2⟩ := r
        simp only [hu] at h
        have h1 := (updateGameRoom_frame rand k room room2 k2 hu).imp
          (fun p q hpq => (⟨hpq.1, hpq.2.1, fun ha => by rw [hpq.2.2 ha]⟩ :
            q.1 = p.1 ∧ q.2.alive = p.2.alive ∧ (p.2.alive = false → q.2.body = p.2.body)))
        exact forall2_trans htr h1 (ih k2 room2 room1 k1 h)
    | message m =>
      simp only [run] at h
      have h1 := (handleWebSocketMessage_frame m room).imp
        (fun p q hpq => (⟨hpq.1, hpq.2.2, fun _ => hpq.2.1⟩ :
          q.1 = p.1 ∧ q.2.alive = p.2.alive ∧ (p.2.alive = false → q.2.body = p.2.body)))
      exact forall2_trans htr h1 (ih k (handleWebSocketMessage m room) room1 k1 h)

/-- C12: when the living snakes can step, a tick returns and leaves every dead
snake exactly as it was (body, heading, alive flag), under its id and at its
place; and along any sequence of ticks and messages that returns, every entity
keeps its id and its alive flag, so `alive` never goes from false to true, and
a dead snake keeps its body. -/
theorem dead_is_terminal (rand : Nat → Nat) (k : Nat) (room : GameRoom)
    (hd : canStep room.players) :
    (∃ room1 k1, updateGameRoom rand k room = some (room1, k1) ∧
      List.Forall₂ (fun p q => q.1 = p.1 ∧
        (p.2.alive = false → q.2.body = p.2.body ∧ q.2.direction = p.2.direction ∧
          q.2.alive = false)) room.players room1.players) ∧
    (∀ es room1 k1, run rand k room es = some (room1, k1) →
      List.Forall₂ (fun p q => q.1 = p.1 ∧ q.2.alive = p.2.alive ∧
        (p.2.alive = false → q.2.alive = false ∧ q.2.body = p.2.body))
        room.players room1.players) := by
  constructor
  · obtain ⟨⟨out, food1, k1⟩, ht⟩ :=
      tickPlayers_defined rand room.players room.food k (canStep_exists _ hd)
    have hu := updateGameRoom_eq rand k room out food1 k1 ht
    refine ⟨_, _, hu, (updateGameRoom_frame rand k room _ k1 hu).imp ?_⟩
    intro p q hpq
    refine ⟨hpq.1, fun ha => ?_⟩
    rw [hpq.2.2 ha]
    exact ⟨rfl, rfl, ha⟩
  · intro es room1 k1 h
    refine (run_frame rand es k room room1 k1 h).imp ?_
    intro p q hpq
    exact ⟨hpq.1, hpq.2.1, fun ha => ⟨hpq.2.1.trans ha, hpq.2.2 ha⟩⟩

/-- C12 at a room with the dead snake D = `[(3,3),(3,4)]` and the living snake
A = `[(5,5)]`. -/
theorem dead_is_terminal_witness :
    (∃ room1 k1, updateGameRoom (fun _ => 0) 0
        { players := [("D", { body := [(3, 3), (3, 4)], direction := 0, alive := false }),
                      ("A", { body := [(5, 5)], direction := 1, alive := true })],
          food := (0, 0) } = some (room1, k1) ∧
      List.Forall₂ (fun p q => q.1 = p.1 ∧
        (p.2.alive = false → q.2.body = p.2.body ∧ q.2.direction = p.2.direction ∧
          q.2.alive = false))
        [("D", ({ body := [(3, 3), (3, 4)], direction := 0, alive := false } : Snake)),
         ("A", { body := [(5, 5)], direction := 1, alive := true })] room1.players) ∧
    (∀ es room1 k1, run (fun _ => 0) 0
        { players := [("D", { body := [(3, 3), (3, 4)], direction := 0, alive := false }),
                      ("A", { body := [(5, 5)], direction := 1, alive := true })],
          food := (0, 0) } es = some (room1, k1) →
      List.Forall₂ (fun p q => q.1 = p.1 ∧ q.2.alive = p.2.alive ∧
        (p.2.alive = false → q.2.alive = false ∧ q.2.body = p.2.body))
        [("D", ({ body := [(3, 3), (3, 4)], direction := 0, alive := false } : Snake)),
         ("A", { body := [(5, 5)], direction := 1, alive := true })] room1.players) :=
  dead_is_terminal (fun _ => 0) 0
    { players := [("D", { body := [(3, 3), (3, 4)], direction := 0, alive := false }),
                  ("A", { body := [(5, 5)], direction := 1, alive := true })],
      food := (0, 0) }
    (by decide)

/-! ## Messages only set headings (C13) -/

/-- C13: for every message, `handleWebSocketMessage` keeps the food, the list
of ids, and the body and the alive flag of every entity, place by place; it
is total, so it returns.  Only headings can differ after the call. -/
theorem input_only_buffers (message : String) (room : GameRoom) :
    (handleWebSocketMessage message room).food = room.food ∧
    (handleWebSocketMessage message room).players.map Prod.fst =
      room.players.map Prod.fst ∧
    List.Forall₂ (fun p q => q.1 = p.1 ∧ q.2.body = p.2.body ∧ q.2.alive = p.2.alive)
      room.players (handleWebSocketMessage message room).players := by
  refine ⟨rfl, ?_, handleWebSocketMessage_frame message room⟩
  simp only [handleWebSocketMessage, List.map_map]
  rfl

/-! ## Joining under an id already present (C14) -/

/-- After `players[id] = snake` the entry of `id` is `snake`. -/
theorem assign_lookup_self (id : String) (snake : Snake) (ps : List (String × Snake)) :
    List.lookup id (assign id snake ps) = some snake := by
  induction ps with
  | nil => simp [assign, List.lookup]
  | cons p rest ih =>
    obtain ⟨a, b⟩ := p
    by_cases h : a = id
    · simp [assign, h, List.lookup]
    · have h1 : (id == a) = false := by
        simpa using fun e : id = a => h e.symm
      simp only [assign, h, if_false, List.lookup, h1]
      exact ih

/-- After `players[id] = snake` the entry of any other id is what it was. -/
theorem assign_lookup_other (id other : String) (snake : Snake)
    (ps : List (String × Snake)) (hne : other ≠ id) :
    List.lookup other (assign id snake ps) = List.lookup other ps := by
  induction ps with
  | nil =>
    have h1 : (other == id) = false := by simpa using hne
    simp [assign, List.lookup, h1]
  | cons p rest ih =>
    obtain ⟨a, b⟩ := p
    by_cases h : a = id
    · subst h
      have h1 : (other == a) = false := by simpa using hne
      simp [assign, List.lookup, h1]
    · simp only [assign, h, if_false, List.lookup]
      cases (other == a) with
      | true => rfl
      | false => exact ih

/-- When `id` is present, `players[id] = snake` keeps the list of ids. -/
theorem assign_keys (id : String) (snake : Snake) (ps : List (String × Snake))
    (hin : id ∈ ps.map Prod.fst) :
    (assign id snake ps).map Prod.fst = ps.map Prod.fst := by
  induction ps with
  | nil => simp at hin
  | cons p rest ih =>
    obtain ⟨a, b⟩ := p
    by_cases h : a = id
    · simp [assign, h]
    · have hin1 : id ∈ rest.map Prod.fst := by
        simp only [List.map_cons, List.mem_cons] at hin
        rcases hin with e | e
        · exact absurd e.symm h
        · exact e
      simp only [assign, h, if_false, List.map_cons, ih hin1]

/-- C14, as stated, fails: in a room where `player_1` is present as the dead
snake `[(8,5),(7,5)]` heading down, the join step does not fail and replaces
it by the fresh snake `[(5,5)]`, heading right, alive. -/
theorem duplicate_join_counterexample :
    joinRoom
      { players := [("player_1",
          { body := [(8, 5), (7, 5)], direction := 2, alive := false })],
        food := (3, 3) } =
      { players := [("player_1", { body := [(5, 5)], direction := 1, alive := true })],
        food := (3, 3) } ∧
    joinRoom
      { players := [("player_1",
          { body := [(8, 5), (7, 5)], direction := 2, alive := false })],
        food := (3, 3) } ≠
      { players := [("player_1",
          { body := [(8, 5), (7, 5)], direction := 2, alive := false })],
        food := (3, 3) } := by
  decide

/-- C14, amended: joining a room in which the id `player_1` is already present
does not fail; the join step overwrites the entity of that id with the fresh
snake (body `[(5,5)]`, heading right, alive) and keeps the list of ids, the
entity of every other id, and the food. -/
theorem duplicate_join_overwrites (room : GameRoom)
    (hin : "player_1" ∈ room.players.map Prod.fst) :
    (joinRoom room).food = room.food ∧
    (joinRoom room).players.map Prod.fst = room.players.map Prod.fst ∧
    List.lookup "player_1" (joinRoom room).players = some joinSnake ∧
    ∀ other, other ≠ "player_1" →
      List.lookup other (joinRoom room).players = List.lookup other room.players :=
  ⟨rfl, assign_keys "player_1" joinSnake room.players hin,
    assign_lookup_self "player_1" joinSnake room.players,
    fun other hne => assign_lookup_other "player_1" other joinSnake room.players hne⟩

/-- The amended C14 at the room of the dead `player_1` = `[(8,5),(7,5)]` and
the living B = `[(9,9)]`. -/
theorem duplicate_join_overwrites_witness :
    (joinRoom
      { players := [("player_1", { body := [(8, 5), (7, 5)], direction := 2, alive := false }),
                    ("B", { body := [(9, 9)], direction := 0, alive := true })],
        food := (3, 3) }).food = (3, 3) ∧
    (joinRoom
      { players := [("player_1", { body := [(8, 5), (7, 5)], direction := 2, alive := false }),
                    ("B", { body := [(9, 9)], direction := 0, alive := true })],
        food := (3, 3) }).players.map Prod.fst =
      [("player_1", ({ body := [(8, 5), (7, 5)], direction := 2, alive := false } : Snake)),
       ("B", { body := [(9, 9)], direction := 0, alive := true })].map Prod.fst ∧
    List.lookup "player_1" (joinRoom
      { players := [("player_1", { body := [(8, 5), (7, 5)], direction := 2, alive := false }),
                    ("B", { body := [(9, 9)], direction := 0, alive := true })],
        food := (3, 3) }).players = some joinSnake ∧
    ∀ other, other ≠ "player_1" →
      List.lookup other (joinRoom
        { players := [("player_1", { body := [(8, 5), (7, 5)], direction := 2, alive := false }),
                      ("B", { body := [(9, 9)], direction := 0, alive := true })],
          food := (3, 3) }).players =
      List.lookup other
        [("player_1", ({ body := [(8, 5), (7, 5)], direction := 2, alive := false } : Snake)),
         ("B", { body := [(9, 9)], direction := 0, alive := true })] :=
  duplicate_join_overwrites
    { players := [("player_1", { body := [(8, 5), (7, 5)], direction := 2, alive := false }),
                  ("B", { body := [(9, 9)], direction := 0, alive := true })],
      food := (3, 3) }
    (by decide)

/-! ## The food stays in the grid (C16) -/

/-- C16: from a room whose food lies in the grid, a tick that returns ends
with the food in the grid: either no `rand()` value was read and the food is
the old one, or the food is `(r1 % 20, r2 % 20)` for the last two values
`r1`, `r2` read; and the tick returns when the living snakes can step. -/
theorem target_stays_in_grid (rand : Nat → Nat) (k : Nat) (room : GameRoom)
    (hin : inGrid room.food) :
    (canStep room.players → ∃ room1 k1, updateGameRoom rand k room = some (room1, k1)) ∧
    (∀ room1 k1, updateGameRoom rand k room = some (room1, k1) →
      inGrid room1.food ∧
      ((k1 = k ∧ room1.food = room.food) ∨
        (k + 2 ≤ k1 ∧ room1.food =
          (((rand (k1 - 2) % 20 : Nat) : Int), ((rand (k1 - 1) % 20 : Nat) : Int))))) := by
  constructor
  · intro hd
    obtain ⟨⟨out, food1, k1⟩, ht⟩ :=
      tickPlayers_defined rand room.players room.food k (canStep_exists _ hd)
    exact ⟨_, _, updateGameRoom_eq rand k room out food1 k1 ht⟩
  · intro room1 k1 hu
    have ht := updateGameRoom_inv rand k room room1 k1 hu
    rcases tickPlayers_food rand room.players room.food k _ _ _ ht with hm | hm
    · refine ⟨?_, Or.inl hm⟩
      rw [hm.2]
      exact hin
    · have hk : k1 - 2 + 1 = k1 - 1 := by omega
      refine ⟨?_, Or.inr ⟨hm.1, ?_⟩⟩
      · rw [hm.2]
        exact inGrid_newFood rand (k1 - 2)
      · rw [hm.2, newFood, hk]

/-- C16 at the snake `[(5,5)]` heading right with the food on `(6,5)`, which
lies in the grid, and the `rand()` values 47, 47. -/
theorem target_stays_in_grid_witness :
    inGrid (6, 5) ∧
    ((canStep [("player_1", joinSnake)] →
      ∃ room1 k1, updateGameRoom (fun _ => 47) 0
        { players := [("player_1", joinSnake)], food := (6, 5) } = some (room1, k1)) ∧
    (∀ room1 k1, updateGameRoom (fun _ => 47) 0
        { players := [("player_1", joinSnake)], food := (6, 5) } = some (room1, k1) →
      inGrid room1.food ∧
      ((k1 = 0 ∧ room1.food = (6, 5)) ∨
        (0 + 2 ≤ k1 ∧ room1.food =
          ((((fun _ => 47) (k1 - 2) % 20 : Nat) : Int),
            (((fun _ => 47) (k1 - 1) % 20 : Nat) : Int)))))) :=
  ⟨by decide,
    target_stays_in_grid (fun _ => 47) 0
      { players := [("player_1", joinSnake)], food := (6, 5) } (by decide)⟩

/-! ## Bodies are never empty (C17) -/

/-- An iteration leaves a non-empty body non-empty. -/
theorem stepSnake_nonEmpty (rand : Nat → Nat) (food : Cell) (k : Nat) (s s1 : Snake)
    (food1 : Cell) (k1 : Nat) (h : stepSnake rand food k s = some (s1, food1, k1))
    (hb : 1 ≤ s.body.length) : 1 ≤ s1.body.length := by
  rcases stepSnake_cases rand food k s s1 food1 k1 h with hc | hc | hc
  · obtain ⟨_, hs, _, _⟩ := hc
    rw [hs]; exact hb
  · obtain ⟨_, _, hs, _, _⟩ := hc
    rw [hs]; simp
  · obtain ⟨_, nh, _, _, hs, _, _⟩ := hc
    rw [hs]
    simp only [List.length_dropLast, List.length_cons]
    omega

/-- A tick that returns leaves all bodies non-empty. -/
theorem updateGameRoom_nonEmpty (rand : Nat → Nat) (k : Nat) (room room1 : GameRoom)
    (k1 : Nat) (h : updateGameRoom rand k room = some (room1, k1))
    (hb : nonEmptyBodies room.players) : nonEmptyBodies room1.players := by
  have ht := updateGameRoom_inv rand k room room1 k1 h
  intro q hq
  obtain ⟨p, hp, _, f, c, f1, c1, hs⟩ :=
    forall2_mem_right (tickPlayers_forall2 rand room.players room.food k _ _ _ ht) q hq
  exact stepSnake_nonEmpty rand f c p.2 q.2 f1 c1 hs (hb p hp)

/-- A message leaves all bodies non-empty. -/
theorem handleWebSocketMessage_nonEmpty (message : String) (room : GameRoom)
    (hb : nonEmptyBodies room.players) :
    nonEmptyBodies (handleWebSocketMessage message room).players := by
  intro q hq
  obtain ⟨p, hp, _, hbody, _⟩ :=
    forall2_mem_right (handleWebSocketMessage_frame message room) q hq
  rw [hbody]
  exact hb p hp

/-- A tick that does not return has met a living snake without a new head. -/
theorem updateGameRoom_none (rand : Nat → Nat) (k : Nat) (room : GameRoom)
    (h : updateGameRoom rand k room = none) :
    ∃ p ∈ room.players, p.2.alive = true ∧ newHead p.2 = none := by
  by_contra hno
  have hall : ∀ p ∈ room.players, p.2.alive = true → ∃ c, newHead p.2 = some c := by
    intro p hp ha
    cases hn : newHead p.2 with
    | none => exact absurd ⟨p, hp, ha, hn⟩ hno
    | some c => exact ⟨c, rfl⟩
  obtain ⟨⟨out, food1, k1⟩, ht⟩ := tickPlayers_defined rand room.players room.food k hall
  rw [updateGameRoom_eq rand k room out food1 k1 ht] at h
  cases h

/-- C17: from a room in which every body has at least one segment, every
sequence of ticks and messages that returns ends in a room in which every
body has at least one segment; and a sequence that does not return stops at a
tick, reached with all bodies non-empty, at which the head `h` of a living
snake with body `h :: t` cannot be shifted (signed overflow): `body.front()`
never meets an empty body. -/
theorem segments_never_empty (rand : Nat → Nat) (es : List Event) :
    ∀ (k : Nat) (room : GameRoom), nonEmptyBodies room.players →
      (∀ room1 k1, run rand k room es = some (room1, k1) → nonEmptyBodies room1.players) ∧
      (run rand k room es = none →
        ∃ es1 es2 room1 k1, es = es1 ++ Event.tick :: es2 ∧
          run rand k room es1 = some (room1, k1) ∧ nonEmptyBodies room1.players ∧
          ∃ p ∈ room1.players, p.2.alive = true ∧
            ∃ h t, p.2.body = h :: t ∧ shiftHead h p.2.direction = none) := by
  induction es with
  | nil =>
    intro k room hb
    constructor
    · intro room1 k1 h
      simp only [run, Option.some.injEq, Prod.mk.injEq] at h
      rw [← h.1]
      exact hb
    · intro h
      simp [run] at h
  | cons e rest ih =>
    intro k room hb
    cases e with
    | tick =>
      cases hu : updateGameRoom rand k room with
      | none =>
        constructor
        · intro room1 k1 h
          simp [run, hu] at h
        · intro _
          obtain ⟨p, hp, ha, hn⟩ := updateGameRoom_none rand k room hu
          refine ⟨[], rest, room, k, rfl, rfl, hb, p, hp, ha, ?_⟩
          cases hbody : p.2.body with
          | nil =>
            have := hb p hp
            rw [hbody] at this
            simp at this
          | cons c t =>
            refine ⟨c, t, rfl, ?_⟩
            simpa [newHead, hbody] using hn
      | some r =>
        obtain ⟨room2, k2⟩ := r
        have hb2 := updateGameRoom_nonEmpty rand k room room2 k2 hu hb
        have hrun : ∀ l, run rand k room (Event.tick :: l) = run rand k2 room2 l := by
          intro l
          simp [run, hu]
        obtain ⟨ih1, ih2⟩ := ih k2 room2 hb2
        constructor
        · intro room1 k1 h
          rw [hrun] at h
          exact ih1 room1 k1 h
        · intro h
          rw [hrun] at h
          obtain ⟨es1, es2, room1, k1, he, hr, hb1, hp⟩ := ih2 h
          refine ⟨Event.tick :: es1, es2, room1, k1, ?_, ?_, hb1, hp⟩
          · rw [he]; rfl
          · rw [hrun]; exact hr
    | message m =>
      have hb2 := handleWebSocketMessage_nonEmpty m room hb
      have hrun : ∀ l, run rand k room (Event.message m :: l) =
          run rand k (handleWebSocketMessage m room) l := by
        intro l
        simp [run]
      obtain ⟨ih1, ih2⟩ := ih k (handleWebSocketMessage m room) hb2
      constructor
      · intro room1 k1 h
        rw [hrun] at h
        exact ih1 room1 k1 h
      · intro h
        rw [hrun] at h
        obtain ⟨es1, es2, room1, k1, he, hr, hb1, hp⟩ := ih2 h
        refine ⟨Event.message m :: es1, es2, room1, k1, ?_, ?_, hb1, hp⟩
        · rw [he]; rfl
        · rw [hrun]; exact hr

/-- C17 at the join state and the sequence tick, `UP`, tick, which returns
with the body `[(6,4)]`. -/
theorem segments_never_empty_witness :
    nonEmptyBodies joinState.players ∧
    run (fun _ => 0) 0 joinState [Event.tick, Event.message "UP", Event.tick] =
      some ({ players := [("player_1", { body := [(6, 4)], direction := 0, alive := true })],
              food := (0, 0) }, 0) ∧
    ((∀ room1 k1, run (fun _ => 0) 0 joinState
        [Event.tick, Event.message "UP", Event.tick] = some (room1, k1) →
        nonEmptyBodies room1.players) ∧
      (run (fun _ => 0) 0 joinState [Event.tick, Event.message "UP", Event.tick] = none →
        ∃ es1 es2 room1 k1,
          [Event.tick, Event.message "UP", Event.tick] = es1 ++ Event.tick :: es2 ∧
          run (fun _ => 0) 0 joinState es1 = some (room1, k1) ∧
          nonEmptyBodies room1.players ∧
          ∃ p ∈ room1.players, p.2.alive = true ∧
            ∃ h t, p.2.body = h :: t ∧ shiftHead h p.2.direction = none)) :=
  ⟨by decide, by decide,
    segments_never_empty (fun _ => 0) [Event.tick, Event.message "UP", Event.tick] 0 joinState
      (by decide)⟩

end Server
